import Mathlib

/-!
Verification of the GaussForge format-conversion core against its
natural-language specification.  Each section embeds a portion of the
C++ source (readers, writers, codecs, registry, validation) as Lean
definitions and proves or refutes the specification claims about it.

Modelling conventions:
* byte buffers are `List ℕ` (each entry a byte value);
* machine integers are `ℕ`/`ℤ` with explicit 2^32 wrapping where the
  source casts between widths;
* IEEE-754 float arithmetic is modelled over `ℝ` (or `ℚ` where the
  source computation is exact), with bit-level modelling of float
  classification (finite / infinite / NaN) where a claim depends on it.
-/

/-! ## Registry (src/unnamed/part_015, src/unnamed/part_010)

`IORegistry` keeps two `std::unordered_map<std::string, handler*>`
tables.  `NormalizeExt` strips one leading dot and nothing else; the
lookup is the exact-string `unordered_map::find`. -/

/-- Tags for the concrete reader instances registered by `IORegistry`'s
constructor, in registration order. -/
inductive ReaderTag
  | spz
  | plyAuto
  | plyCompressed
  | splat
  | ksplat
  | sog
deriving DecidableEq

/-- Tags for the concrete writer instances registered by `IORegistry`'s
constructor. -/
inductive WriterTag
  | spz
  | ply
  | plyCompressed
  | splat
  | ksplat
  | sog
deriving DecidableEq

/-- `NormalizeExt` from part_015 lines 15-19: strip a single leading
dot; no case folding is performed. -/
def NormalizeExt (ext : String) : String :=
  if ext ≠ "" ∧ ext.front = '.' then ext.drop 1 else ext

/-- The reader table built by `IORegistry::IORegistry` (part_015 lines
22-36): keys are the normalized registration extensions. -/
def readersTable : List (String × ReaderTag) :=
  [("spz", ReaderTag.spz), ("ply", ReaderTag.plyAuto),
   ("compressed.ply", ReaderTag.plyCompressed), ("splat", ReaderTag.splat),
   ("ksplat", ReaderTag.ksplat), ("sog", ReaderTag.sog)]

/-- The writer table built by `IORegistry::IORegistry`. -/
def writersTable : List (String × WriterTag) :=
  [("spz", WriterTag.spz), ("ply", WriterTag.ply),
   ("compressed.ply", WriterTag.plyCompressed), ("splat", WriterTag.splat),
   ("ksplat", WriterTag.ksplat), ("sog", WriterTag.sog)]

/-- `IORegistry::ReaderForExt` (part_015 lines 57-60): normalize, then
exact-string map lookup. -/
def ReaderForExt (ext : String) : Option ReaderTag :=
  readersTable.lookup (NormalizeExt ext)

/-- `IORegistry::WriterForExt` (part_015 lines 62-65). -/
def WriterForExt (ext : String) : Option WriterTag :=
  writersTable.lookup (NormalizeExt ext)

/-- C3 counterexample: registry lookup is NOT case-insensitive.  The
upper-case variant `"PLY"` resolves to no handler while `"ply"`
resolves to the PLY auto-detecting reader, refuting the claim that
every upper/lower-case variant of a registered extension resolves to
the same handler. -/
theorem registry_lookup_not_case_insensitive :
    ReaderForExt "PLY" = none ∧ ReaderForExt "ply" = some ReaderTag.plyAuto ∧
      ¬ ReaderForExt "PLY" = ReaderForExt "ply" := by
  decide

/-- C3 (amended): registry extension lookup ignores a single leading
dot but is case-sensitive.  For every registered extension, the bare
form and the single-leading-dot form resolve to the same registered
handler (readers and writers alike), while upper-case variants resolve
to no handler at all. -/
theorem registry_lookup_dot_insensitive_case_sensitive :
    (ReaderForExt "ply" = some ReaderTag.plyAuto ∧
      ReaderForExt ".ply" = some ReaderTag.plyAuto ∧
      WriterForExt "ply" = some WriterTag.ply ∧
      WriterForExt ".ply" = some WriterTag.ply) ∧
    (ReaderForExt "compressed.ply" = some ReaderTag.plyCompressed ∧
      ReaderForExt ".compressed.ply" = some ReaderTag.plyCompressed ∧
      WriterForExt "compressed.ply" = some WriterTag.plyCompressed ∧
      WriterForExt ".compressed.ply" = some WriterTag.plyCompressed) ∧
    (ReaderForExt "splat" = some ReaderTag.splat ∧
      ReaderForExt ".splat" = some ReaderTag.splat ∧
      WriterForExt "splat" = some WriterTag.splat ∧
      WriterForExt ".splat" = some WriterTag.splat) ∧
    (ReaderForExt "ksplat" = some ReaderTag.ksplat ∧
      ReaderForExt ".ksplat" = some ReaderTag.ksplat ∧
      WriterForExt "ksplat" = some WriterTag.ksplat ∧
      WriterForExt ".ksplat" = some WriterTag.ksplat) ∧
    (ReaderForExt "spz" = some ReaderTag.spz ∧
      ReaderForExt ".spz" = some ReaderTag.spz ∧
      WriterForExt "spz" = some WriterTag.spz ∧
      WriterForExt ".spz" = some WriterTag.spz) ∧
    (ReaderForExt "sog" = some ReaderTag.sog ∧
      ReaderForExt ".sog" = some ReaderTag.sog ∧
      WriterForExt "sog" = some WriterTag.sog ∧
      WriterForExt ".sog" = some WriterTag.sog) ∧
    (ReaderForExt "PLY" = none ∧ ReaderForExt ".Splat" = none ∧
      WriterForExt "SOG" = none ∧ WriterForExt "Ksplat" = none) := by
  decide

/-! ## Byte-buffer utilities shared by the PLY-family codecs -/

/-- ASCII byte sequence of a string literal (all header text is ASCII). -/
def strBytes (s : String) : List ℕ :=
  s.data.map Char.toNat

/-- Membership of a byte in the trim set `" \t\r\n"` used by
`find_first_not_of` in the header line readers. -/
def isWsByte (b : ℕ) : Bool :=
  b = 32 || b = 9 || b = 13 || b = 10

/-- Split a buffer at the first newline byte, dropping the newline, as
the line-extraction step of `getlineSkipComment` does. -/
def splitLine (bytes : List ℕ) : List ℕ × List ℕ :=
  match bytes.findIdx? (· = 10) with
  | some i => (bytes.take i, bytes.drop (i + 1))
  | none => (bytes, [])

theorem splitLine_snd_length_lt (bytes : List ℕ) (h : bytes ≠ []) :
    (splitLine bytes).2.length < bytes.length := by
  have hpos : 0 < bytes.length := List.length_pos.mpr h
  unfold splitLine
  cases hf : bytes.findIdx? (· = 10) with
  | none => simpa using hpos
  | some i =>
    simp only [List.length_drop]
    omega

/-- Fuelled loop body of `getlineSkipComment` (ply_reader.cpp lines
33-72 and the identically-structured copies in the compressed reader
and the auto-detector): pull the next line, strip leading whitespace,
skip blank and `comment` lines.  Each iteration of the C++ loop
consumes at least one byte, so `bytes.length` units of fuel are always
sufficient; the fuel only makes the recursion structural. -/
def getlineAux : ℕ → List ℕ → Option (List ℕ × List ℕ)
  | 0, _ => none
  | fuel + 1, bytes =>
    if bytes = [] then none
    else if (splitLine bytes).1.dropWhile isWsByte = [] then
      getlineAux fuel (splitLine bytes).2
    else if List.isPrefixOf (strBytes "comment")
        ((splitLine bytes).1.dropWhile isWsByte) then
      getlineAux fuel (splitLine bytes).2
    else some ((splitLine bytes).1.dropWhile isWsByte, (splitLine bytes).2)

/-- `getlineSkipComment` as used by `PlyReader::Read`: returns the next
meaningful (trimmed, non-comment) header line and the remaining buffer,
or `none` at end of input. -/
def getlineSkipComment (bytes : List ℕ) : Option (List ℕ × List ℕ) :=
  getlineAux bytes.length bytes

theorem getlineAux_length_lt (fuel : ℕ) : ∀ (bytes l r : List ℕ),
    getlineAux fuel bytes = some (l, r) → r.length < bytes.length := by
  induction fuel with
  | zero => intro bytes l r h; simp [getlineAux] at h
  | succ n ih =>
    intro bytes l r h
    by_cases hb : bytes = []
    · rw [getlineAux, if_pos hb] at h; cases h
    · rw [getlineAux, if_neg hb] at h
      by_cases h1 : (splitLine bytes).1.dropWhile isWsByte = []
      · rw [if_pos h1] at h
        exact (ih _ l r h).trans (splitLine_snd_length_lt bytes hb)
      · rw [if_neg h1] at h
        by_cases h2 : List.isPrefixOf (strBytes "comment")
            ((splitLine bytes).1.dropWhile isWsByte) = true
        · rw [if_pos h2] at h
          exact (ih _ l r h).trans (splitLine_snd_length_lt bytes hb)
        · rw [if_neg h2] at h
          injection h with h
          injection h with hl hr
          subst hr
          exact splitLine_snd_length_lt bytes hb

theorem getlineSkipComment_length_lt (bytes l r : List ℕ)
    (h : getlineSkipComment bytes = some (l, r)) : r.length < bytes.length :=
  getlineAux_length_lt bytes.length bytes l r h

/-- Decimal digit byte. -/
def isDigitByte (b : ℕ) : Bool :=
  48 ≤ b && b ≤ 57

/-- `isspace` set skipped by `std::stoi` (space and the five control
whitespace characters). -/
def isStoiSpaceByte (b : ℕ) : Bool :=
  b = 32 || (9 ≤ b && b ≤ 13)

/-- Value of a leading digit run, `none` when there is no digit.  The
source relies on `std::stoi`, which throws in that case. -/
def digitsVal (l : List ℕ) : Option ℕ :=
  if l.takeWhile isDigitByte = [] then none
  else some ((l.takeWhile isDigitByte).foldl (fun a b => a * 10 + (b - 48)) 0)

/-- `std::stoi` on a byte sequence: skip whitespace, optional sign,
then a digit run; `none` models the thrown `std::invalid_argument`.
(The `out_of_range` overflow throw is not modelled; header counts in
scope are small.) -/
def stoiBytes (l : List ℕ) : Option ℤ :=
  match l.dropWhile isStoiSpaceByte with
  | 45 :: r => (digitsVal r).map (fun n => -(n : ℤ))
  | 43 :: r => (digitsVal r).map (fun n => (n : ℤ))
  | l1 => (digitsVal l1).map (fun n => (n : ℤ))

/-- Little-endian grouping of a byte stream into 32-bit words (the
`memcpy` of the float payload keeps the raw bit patterns; this model
stores those patterns). -/
def bytesToF32Bits : List ℕ → List ℕ
  | b0 :: b1 :: b2 :: b3 :: rest =>
    (b0 + 256 * b1 + 65536 * b2 + 16777216 * b3) :: bytesToF32Bits rest
  | _ => []

/-! ## IR shape and validation (include/gf/core part_008, src/src/core/validate.cpp)

For the byte-exact readers (plain PLY, splat) the float arrays are
modelled by their IEEE-754 bit patterns, which is enough to decide
every structural check and the strict non-finiteness scan. -/

/-- `ShCoeffsPerPoint` from part_008 lines 47-52. -/
def ShCoeffsPerPoint (degree : ℤ) : ℤ :=
  if degree ≤ 0 then 0 else ((degree + 1) * (degree + 1) - 1) * 3

/-- A float32 bit pattern is finite iff its exponent field is not all
ones (`std::isfinite`). -/
def f32IsFiniteBits (bits : ℕ) : Bool :=
  bits / 2 ^ 23 % 256 ≠ 255

/-- `GaussianCloudIR` at the bit-pattern level, as produced by the
plain PLY reader. -/
structure PlyIR where
  numPoints : ℤ
  shDegree : ℤ
  positions : List ℕ
  scales : List ℕ
  rotations : List ℕ
  alphas : List ℕ
  colors : List ℕ
  sh : List ℕ
deriving DecidableEq

/-- Message text of validate.cpp's `expect_size` mismatch error. -/
def sizeMismatchMsg (name : String) (got expect : ℕ) : String :=
  name ++ " size mismatch, got " ++ toString got ++ ", expect " ++ toString expect

/-- `ValidateBasic` (src/src/core/validate.cpp lines 11-82) on a
bit-pattern IR: the negative-count check, the six length checks in
fixed field order, and under `strict` the non-finite scan in the same
order, all bit-exact (`IsFinite` is the exponent-field test). -/
def ValidateBasicBits (ir : PlyIR) (strict : Bool) : Option String :=
  if ir.numPoints < 0 then some "numPoints is negative"
  else if ir.positions.length ≠ ir.numPoints.toNat * 3 then
    some (sizeMismatchMsg "positions" ir.positions.length (ir.numPoints.toNat * 3))
  else if ir.scales.length ≠ ir.numPoints.toNat * 3 then
    some (sizeMismatchMsg "scales" ir.scales.length (ir.numPoints.toNat * 3))
  else if ir.rotations.length ≠ ir.numPoints.toNat * 4 then
    some (sizeMismatchMsg "rotations" ir.rotations.length (ir.numPoints.toNat * 4))
  else if ir.alphas.length ≠ ir.numPoints.toNat then
    some (sizeMismatchMsg "alphas" ir.alphas.length ir.numPoints.toNat)
  else if ir.colors.length ≠ ir.numPoints.toNat * 3 then
    some (sizeMismatchMsg "colors" ir.colors.length (ir.numPoints.toNat * 3))
  else if ir.sh.length ≠ ir.numPoints.toNat * (ShCoeffsPerPoint ir.shDegree).toNat then
    some (sizeMismatchMsg "sh" ir.sh.length
      (ir.numPoints.toNat * (ShCoeffsPerPoint ir.shDegree).toNat))
  else if strict && ir.positions.any (fun b => ¬ f32IsFiniteBits b) then
    some "positions contains non-finite value"
  else if strict && ir.scales.any (fun b => ¬ f32IsFiniteBits b) then
    some "scales contains non-finite value"
  else if strict && ir.rotations.any (fun b => ¬ f32IsFiniteBits b) then
    some "rotations contains non-finite value"
  else if strict && ir.alphas.any (fun b => ¬ f32IsFiniteBits b) then
    some "alphas contains non-finite value"
  else if strict && ir.colors.any (fun b => ¬ f32IsFiniteBits b) then
    some "colors contains non-finite value"
  else if strict && ir.sh.any (fun b => ¬ f32IsFiniteBits b) then
    some "sh contains non-finite value"
  else none

/-! ## Plain PLY reader (src/src/io/ply_reader.cpp) -/

/-- `degreeForDim` from ply_reader.cpp lines 22-30. -/
def degreeForDim (dim : ℕ) : ℤ :=
  if dim < 3 then 0 else if dim < 8 then 1 else if dim < 15 then 2 else 3

/-- Index assigned to a property name by the reader's
`unordered_map` (`fields[name] = propIdx++`): the running index of the
last header line declaring that name. -/
def lastIdxOf (names : List (List ℕ)) (name : List ℕ) : Option ℕ :=
  ((names.enum.filter (fun p => p.2 == name)).map (fun p => p.1)).getLast?

/-- The property-line loop of `PlyReader::Read` (lines 111-125):
collect `property float` names in declaration order until
`end_header`; any other line is an unsupported property type.  Fuel is
the remaining byte count plus one, which the loop can never exhaust. -/
def plyParsePropsAux : ℕ → List ℕ → Except String (List (List ℕ) × List ℕ)
  | 0, _ => .error "ply read failed: EOF in header"
  | fuel + 1, bytes =>
    match getlineSkipComment bytes with
    | none => .error "ply read failed: EOF in header"
    | some (l, r) =>
      if l = strBytes "end_header" then .ok ([], r)
      else if List.isPrefixOf (strBytes "property float ") l then
        match plyParsePropsAux fuel r with
        | .ok (names, rest) => .ok (l.drop 15 :: names, rest)
        | .error e => .error e
      else .error "ply read failed: unsupported property type"

/-- The reader's `f_rest_i` scan (lines 156-162): indices of
`f_rest_0, f_rest_1, ...` until the first missing one. -/
def plyShIdx (names : List (List ℕ)) : List ℕ :=
  ((List.range (names.length + 1)).takeWhile
      (fun i => (lastIdxOf names (strBytes ("f_rest_" ++ toString i))).isSome)).map
    (fun i => (lastIdxOf names (strBytes ("f_rest_" ++ toString i))).getD 0)

/-- Payload phase of `PlyReader::Read` (lines 127-213): required-field
checks, payload size check, per-point gathering into the IR (with the
channel-major to interleaved SH transpose), and final validation with
strict gating. -/
def plyReadBody (numPoints : ℤ) (names : List (List ℕ)) (payload : List ℕ)
    (strict : Bool) : Except String PlyIR :=
  let idx := fun name => lastIdxOf names (strBytes name)
  let posIdxO := [idx "x", idx "y", idx "z"]
  let scaleIdxO := [idx "scale_0", idx "scale_1", idx "scale_2"]
  let rotIdxO := [idx "rot_0", idx "rot_1", idx "rot_2", idx "rot_3"]
  let colorIdxO := [idx "f_dc_0", idx "f_dc_1", idx "f_dc_2"]
  if posIdxO.any (·.isNone) then .error "missing position fields"
  else if scaleIdxO.any (·.isNone) then .error "missing scale fields"
  else if rotIdxO.any (·.isNone) then .error "missing rot fields"
  else if colorIdxO.any (·.isNone) then .error "missing color fields"
  else if (idx "opacity").isNone then .error "missing opacity field"
  else
    let numFields := names.dedup.length
    let n := numPoints.toNat
    if payload.length < n * numFields * 4 then
      .error "ply read failed: insufficient data"
    else
      let values := bytesToF32Bits (payload.take (n * numFields * 4))
      let val := fun (i j : ℕ) => values.getD (i * numFields + j) 0
      let shIdx := plyShIdx names
      let shDim := shIdx.length / 3
      let ir : PlyIR := {
        numPoints := numPoints
        shDegree := degreeForDim shDim
        positions := (List.range n).flatMap
          (fun i => (posIdxO.map (·.getD 0)).map (fun j => val i j))
        scales := (List.range n).flatMap
          (fun i => (scaleIdxO.map (·.getD 0)).map (fun j => val i j))
        rotations := (List.range n).flatMap
          (fun i => (rotIdxO.map (·.getD 0)).map (fun j => val i j))
        alphas := (List.range n).map (fun i => val i ((idx "opacity").getD 0))
        colors := (List.range n).flatMap
          (fun i => (colorIdxO.map (·.getD 0)).map (fun j => val i j))
        sh := (List.range n).flatMap (fun i => (List.range shDim).flatMap (fun j =>
          [val i (shIdx.getD j 0), val i (shIdx.getD (j + shDim) 0),
           val i (shIdx.getD (j + 2 * shDim) 0)])) }
      match ValidateBasicBits ir strict with
      | some m => if strict then .error m else .ok ir
      | none => .ok ir

/-- `PlyReader::Read` (ply_reader.cpp lines 78-218): magic line, format
line, `element vertex N` with its positivity check, property list,
payload. -/
def plyRead (bytes : List ℕ) (strict : Bool) : Except String PlyIR :=
  if bytes.length = 0 then .error "ply read failed: empty input"
  else match getlineSkipComment bytes with
  | none => .error "ply read failed: not ply"
  | some (l1, r1) =>
    if l1 ≠ strBytes "ply" then .error "ply read failed: not ply"
    else match getlineSkipComment r1 with
    | none => .error "ply read failed: unsupported format"
    | some (l2, r2) =>
      if l2 ≠ strBytes "format binary_little_endian 1.0" then
        .error "ply read failed: unsupported format"
      else match getlineSkipComment r2 with
      | none => .error "ply read failed: missing vertex count"
      | some (l3, r3) =>
        if ¬ List.isPrefixOf (strBytes "element vertex ") l3 then
          .error "ply read failed: missing vertex count"
        else match stoiBytes (l3.drop 15) with
        | none => .error "ply read failed: stoi"
        | some numPoints =>
          if numPoints ≤ 0 then .error "ply read failed: invalid vertex count"
          else match plyParsePropsAux (r3.length + 1) r3 with
          | .error e => .error e
          | .ok (names, payload) => plyReadBody numPoints names payload strict

/-- The literal buffer of the claim: a plain PLY header declaring zero
vertices, all required float properties, `end_header`, no payload. -/
def emptyVertexPlyBuffer : List ℕ :=
  strBytes ("ply\nformat binary_little_endian 1.0\nelement vertex 0\n" ++
    "property float x\nproperty float y\nproperty float z\n" ++
    "property float scale_0\nproperty float scale_1\nproperty float scale_2\n" ++
    "property float rot_0\nproperty float rot_1\nproperty float rot_2\n" ++
    "property float rot_3\nproperty float opacity\n" ++
    "property float f_dc_0\nproperty float f_dc_1\nproperty float f_dc_2\n" ++
    "end_header\n")

deriving instance DecidableEq for Except

set_option maxRecDepth 8000 in
/-- C1 counterexample: the PLY reader does NOT succeed on the
zero-vertex buffer — `PlyReader::Read` rejects any vertex count `≤ 0`
(ply_reader.cpp line 104), under either value of the strict option. -/
theorem plyRead_emptyVertex_not_ok :
    (plyRead emptyVertexPlyBuffer false).isOk = false ∧
      (plyRead emptyVertexPlyBuffer true).isOk = false := by
  decide

set_option maxRecDepth 8000 in
/-- C1 (amended): on the zero-vertex buffer the PLY reader returns the
`invalid vertex count` failure (a non-positive vertex count is a hard
error, per the reader's own error taxonomy), regardless of the strict
option. -/
theorem plyRead_emptyVertex_invalid_count :
    plyRead emptyVertexPlyBuffer false =
        .error "ply read failed: invalid vertex count" ∧
      plyRead emptyVertexPlyBuffer true =
        .error "ply read failed: invalid vertex count" := by
  decide

/-! ## Splat reader (src/src/io/splat_reader.cpp)

The splat reader's failure behaviour depends on the decoded values
only through `std::isfinite`, which is a function of the float32 bit
pattern.  The model therefore tracks, for every IR slot, the IEEE-754
class of the stored value: colors, alphas and rotations are always
finite by construction (they are built from byte arithmetic and a
guarded normalization); positions keep the class of the raw payload
float; a scale is non-finite exactly when the raw payload float is
+inf (then `s > 0` holds and `log s = +inf`), since for NaN and -inf
the `s > 0` test fails and the `-10.0` sentinel is stored. -/

/-- IEEE-754 class of a stored float value. -/
inductive FClass
  | fin
  | inf (neg : Bool)
  | nan
deriving DecidableEq

/-- Class of a float32 bit pattern. -/
def f32Class (bits : ℕ) : FClass :=
  if bits / 2 ^ 23 % 256 ≠ 255 then .fin
  else if bits % 2 ^ 23 = 0 then .inf (bits / 2 ^ 31 % 2 = 1)
  else .nan

/-- Little-endian 32-bit word at a byte offset (out-of-range bytes read
as 0; the reader's size checks keep all accesses in range). -/
def leU32At (bytes : List ℕ) (off : ℕ) : ℕ :=
  bytes.getD off 0 + 256 * bytes.getD (off + 1) 0 +
    65536 * bytes.getD (off + 2) 0 + 16777216 * bytes.getD (off + 3) 0

/-- `static_cast<int32_t>` of an unsigned value. -/
def toInt32 (n : ℕ) : ℤ :=
  if n % 2 ^ 32 < 2 ^ 31 then (n % 2 ^ 32 : ℤ) else (n % 2 ^ 32 : ℤ) - 2 ^ 32

/-- Class of the log-scale the reader stores for a raw scale float of
class `c` (splat_reader.cpp lines 99-105). -/
def splatScaleClass (c : FClass) : FClass :=
  if c = .inf false then .inf false else .fin

/-- `GaussianCloudIR` at the float-class level, as produced by the
splat reader. -/
structure SplatIR where
  numPoints : ℤ
  shDegree : ℤ
  positions : List FClass
  scales : List FClass
  rotations : List FClass
  alphas : List FClass
  colors : List FClass
  sh : List FClass
deriving DecidableEq

/-- `ValidateBasic` (validate.cpp) on a float-class IR; `IsFinite`
holds exactly for class `fin`. -/
def ValidateBasicClass (ir : SplatIR) (strict : Bool) : Option String :=
  if ir.numPoints < 0 then some "numPoints is negative"
  else if ir.positions.length ≠ ir.numPoints.toNat * 3 then
    some (sizeMismatchMsg "positions" ir.positions.length (ir.numPoints.toNat * 3))
  else if ir.scales.length ≠ ir.numPoints.toNat * 3 then
    some (sizeMismatchMsg "scales" ir.scales.length (ir.numPoints.toNat * 3))
  else if ir.rotations.length ≠ ir.numPoints.toNat * 4 then
    some (sizeMismatchMsg "rotations" ir.rotations.length (ir.numPoints.toNat * 4))
  else if ir.alphas.length ≠ ir.numPoints.toNat then
    some (sizeMismatchMsg "alphas" ir.alphas.length ir.numPoints.toNat)
  else if ir.colors.length ≠ ir.numPoints.toNat * 3 then
    some (sizeMismatchMsg "colors" ir.colors.length (ir.numPoints.toNat * 3))
  else if ir.sh.length ≠ ir.numPoints.toNat * (ShCoeffsPerPoint ir.shDegree).toNat then
    some (sizeMismatchMsg "sh" ir.sh.length
      (ir.numPoints.toNat * (ShCoeffsPerPoint ir.shDegree).toNat))
  else if strict && ir.positions.any (fun c => c ≠ .fin) then
    some "positions contains non-finite value"
  else if strict && ir.scales.any (fun c => c ≠ .fin) then
    some "scales contains non-finite value"
  else if strict && ir.rotations.any (fun c => c ≠ .fin) then
    some "rotations contains non-finite value"
  else if strict && ir.alphas.any (fun c => c ≠ .fin) then
    some "alphas contains non-finite value"
  else if strict && ir.colors.any (fun c => c ≠ .fin) then
    some "colors contains non-finite value"
  else if strict && ir.sh.any (fun c => c ≠ .fin) then
    some "sh contains non-finite value"
  else none

/-- The IR record assembled by the splat reader's decoding loop
(splat_reader.cpp lines 56-160): one 32-byte record per splat;
positions at offsets 0/4/8, scales at 12/16/20, color+opacity bytes at
24-27, quaternion bytes at 28-31; `shDegree` fixed to 0. -/
def splatReadIR (bytes : List ℕ) (numSplats : ℕ) : SplatIR :=
  { numPoints := toInt32 numSplats
    shDegree := 0
    positions := (List.range numSplats).flatMap (fun i =>
      [f32Class (leU32At bytes (i * 32)), f32Class (leU32At bytes (i * 32 + 4)),
       f32Class (leU32At bytes (i * 32 + 8))])
    scales := (List.range numSplats).flatMap (fun i =>
      [splatScaleClass (f32Class (leU32At bytes (i * 32 + 12))),
       splatScaleClass (f32Class (leU32At bytes (i * 32 + 16))),
       splatScaleClass (f32Class (leU32At bytes (i * 32 + 20)))])
    rotations := (List.range numSplats).flatMap
      (fun _ => [FClass.fin, FClass.fin, FClass.fin, FClass.fin])
    alphas := (List.range numSplats).map (fun _ => FClass.fin)
    colors := (List.range numSplats).flatMap
      (fun _ => [FClass.fin, FClass.fin, FClass.fin])
    sh := [] }

/-- The final validate-and-gate step shared by the readers: a
validation message is returned as the failure only under `strict`
(splat_reader.cpp lines 162-167). -/
def strictGateSplat (ir : SplatIR) (strict : Bool) : Except String SplatIR :=
  match ValidateBasicClass ir strict with
  | some m => if strict then .error m else .ok ir
  | none => .ok ir

theorem strictGateSplat_false_isOk (ir : SplatIR) :
    (strictGateSplat ir false).isOk = true := by
  unfold strictGateSplat
  cases ValidateBasicClass ir false with
  | none => rfl
  | some m => rfl

theorem strictGateSplat_ok (ir ir2 : SplatIR) (strict : Bool)
    (h : strictGateSplat ir strict = .ok ir2) : ir2 = ir := by
  unfold strictGateSplat at h
  revert h
  cases ValidateBasicClass ir strict with
  | none => intro h; cases h; rfl
  | some m =>
    cases strict with
    | false => intro h; cases h; rfl
    | true => intro h; cases h

/-- `SplatReader::Read` (splat_reader.cpp lines 35-172): empty-input
check, 32-byte-stride check, record decode, validation with strict
gating. -/
def splatRead (bytes : List ℕ) (strict : Bool) : Except String SplatIR :=
  if bytes.length = 0 then .error "splat read failed: empty input"
  else if bytes.length % 32 ≠ 0 then
    .error "splat read failed: file size is not a multiple of 32 bytes"
  else if bytes.length / 32 = 0 then .error "splat read failed: file is empty"
  else strictGateSplat (splatReadIR bytes (bytes.length / 32)) strict

/-- A single 32-byte splat record whose position x is the +inf bit
pattern `0x7F800000`; every other field is zero. -/
def infSplatBuffer : List ℕ :=
  [0, 0, 128, 127] ++ List.replicate 28 0

/-- C7 counterexample: a 32-byte buffer (non-empty, length a multiple
of 32) on which the splat reader nevertheless fails, because the
strict-mode read rejects the non-finite decoded position.  This
refutes the claim that the reader fails exactly when the input is
empty or its length is not a multiple of 32. -/
theorem splatRead_strict_nonfinite_fails :
    infSplatBuffer ≠ [] ∧ infSplatBuffer.length % 32 = 0 ∧
      (splatRead infSplatBuffer true).isOk = false := by
  decide

/-- C7 (amended): with `strict = false` the splat reader fails exactly
when the input is empty or its byte length is not a multiple of 32
(under `strict = true` it may additionally fail when a decoded value
is non-finite); and every successful read, strict or not, returns
`numPoints` equal to `len(bytes)/32` (as an `int32` cast) and
`shDegree = 0`. -/
theorem splatRead_characterization (bytes : List ℕ) :
    ((splatRead bytes false).isOk = true ↔
      bytes ≠ [] ∧ bytes.length % 32 = 0) ∧
    (∀ (strict : Bool) (ir : SplatIR), splatRead bytes strict = .ok ir →
      ir.numPoints = toInt32 (bytes.length / 32) ∧ ir.shDegree = 0) := by
  constructor
  · constructor
    · intro hok
      by_cases h0 : bytes.length = 0
      · rw [splatRead, if_pos h0] at hok
        simp [Except.isOk, Except.toBool] at hok
      · refine ⟨fun hnil => h0 (by simp [hnil]), ?_⟩
        by_cases h32 : bytes.length % 32 = 0
        · exact h32
        · rw [splatRead, if_neg h0, if_pos (by simpa using h32)] at hok
          simp [Except.isOk, Except.toBool] at hok
    · rintro ⟨hnil, h32⟩
      have h0 : bytes.length ≠ 0 := fun hh => hnil (List.length_eq_zero.mp hh)
      have hq : bytes.length / 32 ≠ 0 := by omega
      rw [splatRead, if_neg h0, if_neg (by simpa using h32), if_neg hq]
      exact strictGateSplat_false_isOk _
  · intro strict ir h
    by_cases h0 : bytes.length = 0
    · rw [splatRead, if_pos h0] at h; cases h
    · by_cases h32 : bytes.length % 32 = 0
      · by_cases hq : bytes.length / 32 = 0
        · rw [splatRead, if_neg h0, if_neg (by simpa using h32), if_pos hq] at h
          cases h
        · rw [splatRead, if_neg h0, if_neg (by simpa using h32), if_neg hq] at h
          have := strictGateSplat_ok _ _ _ h
          subst this
          exact ⟨rfl, rfl⟩
      · rw [splatRead, if_neg h0, if_pos (by simpa using h32)] at h
        cases h

/-- C7 witness: a concrete 32-byte all-zero buffer is read
successfully in non-strict mode, via the characterization theorem. -/
theorem splatRead_characterization_witness :
    (splatRead (List.replicate 32 0) false).isOk = true :=
  (splatRead_characterization (List.replicate 32 0)).1.mpr
    ⟨by decide, by decide⟩

/-! ## Compressed-PLY higher-order SH byte codec
(src/unnamed/part_014 lines 570-581, src/src/io/ply_compressed_reader.cpp
lines 354-381)

The pack/unpack arithmetic is exact over `ℚ`. -/

/-- Writer-side SH byte (part_014 lines 575-578):
`clamp(floor((v/8 + 0.5) · 256), 0, 255)`. -/
def packShByte (v : ℚ) : ℕ :=
  (max 0 (min 255 ⌊(v / 8 + 1 / 2) * 256⌋)).toNat

/-- Reader-side normalized value of an SH byte
(ply_compressed_reader.cpp lines 366-374): 0 ↦ 0.0, 255 ↦ 1.0,
otherwise `(b + 0.5)/256`. -/
def unpackShNorm (b : ℕ) : ℚ :=
  if b = 0 then 0 else if b = 255 then 1 else ((b : ℚ) + 1 / 2) / 256

/-- Reader-side recovered SH coefficient: `(n − 0.5) · 8`
(ply_compressed_reader.cpp lines 376-378). -/
def unpackShCoeff (b : ℕ) : ℚ :=
  (unpackShNorm b - 1 / 2) * 8

/-- The compressed-PLY writer's SH pass (part_014 lines 571-581):
`shData[idx·shCoeffs + k] = pack(ir.sh[idx·shCoeffs + k])` — the bytes
are laid out in the IR's own coefficient-major interleaved order, with
no transpose to the on-disk channel-major order. -/
def plyCompressedWriterShBytes (sh : List ℚ) : List ℕ :=
  sh.map packShByte

/-- The compressed-PLY reader's SH pass for one point
(ply_compressed_reader.cpp lines 357-381): the disk bytes are treated
as channel-major (`R0..R_{d-1}, G0.., B0..`) and interleaved into the
IR coefficient-major order. -/
def plyCompressedReaderShPoint (bytes : List ℕ) (shDim : ℕ) : List ℚ :=
  (List.range shDim).flatMap (fun j =>
    [unpackShCoeff (bytes.getD j 0),
     unpackShCoeff (bytes.getD (j + shDim) 0),
     unpackShCoeff (bytes.getD (j + 2 * shDim) 0)])

/-- Nine distinct degree-1 SH coefficients, each chosen so that the
byte codec reproduces it exactly (byte values 1..9). -/
def shCexValues : List ℚ :=
  (List.range 9).map (fun k => ((k : ℚ) + 3 / 2 - 128) / 32)

/-- C8: the byte codec itself is value-exact on the chosen inputs
(second conjunct), yet writing one point's nine SH coefficients and
reading them back permutes them (first conjunct): the writer emits the
IR's coefficient-major interleaved order while the reader decodes
assuming the on-disk channel-major order, so the write→read round trip
scrambles higher-order SH.  This refutes the claim's statement that SH
bytes are stored channel-major on disk — true of the reader, violated
by the writer. -/
theorem plyCompressedSh_writer_reader_mismatch :
    plyCompressedReaderShPoint (plyCompressedWriterShBytes shCexValues) 3 ≠
        shCexValues ∧
      shCexValues.map (fun v => unpackShCoeff (packShByte v)) = shCexValues := by
  simp only [shCexValues, plyCompressedWriterShBytes, plyCompressedReaderShPoint,
    List.range_succ, List.range_zero, List.map_append, List.map_cons, List.map_nil,
    List.flatMap_cons, List.flatMap_nil, List.nil_append, List.cons_append,
    List.map_append]
  norm_num [packShByte, unpackShNorm, unpackShCoeff]
  simp
  norm_num

/-! ## Opacity decoding conventions
(src/src/io/ksplat_reader.cpp lines 461-467,
src/src/io/splat_reader.cpp lines 119-128) -/

/-- `MAX_LOGIT` from splat_reader.cpp line 20. -/
def MAX_LOGIT : ℝ := 10

/-- The splat reader's pre-sigmoid opacity from the u8 opacity byte
(splat_reader.cpp lines 119-128): `0 ↦ -MAX_LOGIT`, `255 ↦ MAX_LOGIT`,
otherwise `clamp(-log(255/a - 1), -MAX_LOGIT, MAX_LOGIT)`. -/
noncomputable def splatAlphaFromByte (a : ℕ) : ℝ :=
  if a = 0 then -MAX_LOGIT
  else if a = 255 then MAX_LOGIT
  else min MAX_LOGIT (max (-MAX_LOGIT) (-Real.log (255 / (a : ℝ) - 1)))

/-- The ksplat reader's pre-sigmoid opacity from the u8 opacity byte
(ksplat_reader.cpp lines 461-467): clamp `a/255` to
`[1e-6, 1 - 1e-6]`, then take the logit. -/
noncomputable def ksplatAlphaFromByte (a : ℕ) : ℝ :=
  Real.log ((max (1 / 1000000) (min (1 - 1 / 1000000) ((a : ℝ) / 255))) /
    (1 - max (1 / 1000000) (min (1 - 1 / 1000000) ((a : ℝ) / 255))))

theorem exp_ten_lt : Real.exp 10 < 999999 := by
  have h1 : Real.exp 10 = Real.exp 1 ^ (10 : ℕ) := by
    rw [← Real.exp_nat_mul]; norm_num
  have h2 : Real.exp 1 ^ (10 : ℕ) < 2.7182818286 ^ (10 : ℕ) := by
    apply pow_lt_pow_left Real.exp_one_lt_d9 (le_of_lt (Real.exp_pos 1))
    norm_num
  have h3 : (2.7182818286 : ℝ) ^ (10 : ℕ) < 999999 := by norm_num
  linarith

theorem lt_exp_ten : 1024 < Real.exp 10 := by
  have h1 : Real.exp 10 = Real.exp 1 ^ (10 : ℕ) := by
    rw [← Real.exp_nat_mul]; norm_num
  have h2 : (2 : ℝ) ^ (10 : ℕ) < Real.exp 1 ^ (10 : ℕ) := by
    apply pow_lt_pow_left _ (by norm_num)
    · norm_num
    · linarith [Real.exp_one_gt_d9]
  have h3 : ((2 : ℝ)) ^ (10 : ℕ) = 1024 := by norm_num
  linarith

/-- C4 counterexample: at opacity byte 0 the ksplat reader does not
follow the splat (§4.6) convention: it produces
`log(1e-6 / (1 - 1e-6)) ≈ -13.8`, strictly below `-MAX_LOGIT = -10`,
whereas the splat convention maps byte 0 to exactly `-MAX_LOGIT`. -/
theorem ksplatAlpha_byte0_below_max_logit :
    ksplatAlphaFromByte 0 < -MAX_LOGIT ∧
      ksplatAlphaFromByte 0 ≠ splatAlphaFromByte 0 := by
  have hval : ksplatAlphaFromByte 0 =
      Real.log ((1 / 1000000) / (1 - 1 / 1000000)) := by
    unfold ksplatAlphaFromByte
    norm_num
  have harg : (0 : ℝ) < (1 / 1000000) / (1 - 1 / 1000000) := by norm_num
  have hlt : ksplatAlphaFromByte 0 < -MAX_LOGIT := by
    rw [hval, MAX_LOGIT]
    rw [Real.log_lt_iff_lt_exp harg]
    have h1 : Real.exp (-10) = (Real.exp 10)⁻¹ := by
      rw [← Real.exp_neg]
    rw [h1]
    rw [div_lt_iff (by norm_num), inv_mul_eq_div, lt_div_iff (Real.exp_pos 10)]
    nlinarith [exp_ten_lt]
  refine ⟨hlt, ?_⟩
  have hsplat : splatAlphaFromByte 0 = -MAX_LOGIT := by
    unfold splatAlphaFromByte
    norm_num
  rw [hsplat]
  exact ne_of_lt hlt

/-- C4 (amended): for every interior opacity byte `1 ≤ a ≤ 254` the
ksplat reader recovers exactly the splat convention's value (the
`±MAX_LOGIT` clamp is inactive there), but at the extreme bytes it
diverges: byte 0 maps below `-MAX_LOGIT` and byte 255 above
`+MAX_LOGIT` (to `∓log((1-1e-6)/1e-6) ≈ ∓13.8`), instead of the splat
convention's `∓MAX_LOGIT`. -/
theorem ksplatAlpha_matches_splat_on_interior :
    (∀ a : ℕ, 1 ≤ a → a ≤ 254 →
      ksplatAlphaFromByte a = splatAlphaFromByte a) ∧
    ksplatAlphaFromByte 0 < -MAX_LOGIT ∧
    MAX_LOGIT < ksplatAlphaFromByte 255 := by
  refine ⟨?_, ksplatAlpha_byte0_below_max_logit.1, ?_⟩
  · intro a h1 h2
    have ha1 : (1 : ℝ) ≤ (a : ℝ) := by exact_mod_cast h1
    have ha2 : (a : ℝ) ≤ 254 := by exact_mod_cast h2
    have hden : (0 : ℝ) < 255 - (a : ℝ) := by linarith
    have hapos : (0 : ℝ) < (a : ℝ) := by linarith
    -- the clamp of a/255 to [1e-6, 1-1e-6] is inactive for 1 ≤ a ≤ 254
    have hmin : min (1 - 1 / 1000000 : ℝ) ((a : ℝ) / 255) = (a : ℝ) / 255 := by
      apply min_eq_right
      rw [div_le_iff (by norm_num)]
      nlinarith
    have hmax : max (1 / 1000000 : ℝ) ((a : ℝ) / 255) = (a : ℝ) / 255 := by
      apply max_eq_right
      rw [le_div_iff (by norm_num)]
      nlinarith
    have hratio : ((a : ℝ) / 255) / (1 - (a : ℝ) / 255) = (a : ℝ) / (255 - a) := by
      have hb0 : (1 : ℝ) - (a : ℝ) / 255 ≠ 0 := by
        have hlt : (a : ℝ) / 255 < 1 := by
          rw [div_lt_one (by norm_num)]; linarith
        linarith
      rw [div_eq_div_iff hb0 (ne_of_gt hden)]
      ring
    have hk : ksplatAlphaFromByte a = Real.log ((a : ℝ) / (255 - a)) := by
      unfold ksplatAlphaFromByte
      rw [hmin, hmax, hratio]
    -- bounds on the logit keep the splat-side clamp inactive
    have hratio_pos : (0 : ℝ) < (a : ℝ) / (255 - a) := by positivity
    have hlog_le : Real.log ((a : ℝ) / (255 - a)) ≤ 10 := by
      rw [Real.log_le_iff_le_exp hratio_pos]
      have hle : (a : ℝ) / (255 - a) ≤ 254 := by
        rw [div_le_iff hden]
        nlinarith
      linarith [lt_exp_ten]
    have hlog_ge : -10 ≤ Real.log ((a : ℝ) / (255 - a)) := by
      rw [← Real.log_exp (-10)]
      apply Real.log_le_log (Real.exp_pos _)
      have h1 : Real.exp (-10) = (Real.exp 10)⁻¹ := by rw [← Real.exp_neg]
      have h2 : (Real.exp 10)⁻¹ ≤ 1 / 1024 := by
        rw [inv_le (Real.exp_pos 10) (by norm_num)]
        simpa [one_div] using le_of_lt lt_exp_ten
      have h3 : (1 / 1024 : ℝ) ≤ (a : ℝ) / (255 - a) := by
        rw [div_le_div_iff (by norm_num) hden]
        nlinarith
      linarith
    have hsp : splatAlphaFromByte a =
        min MAX_LOGIT (max (-MAX_LOGIT) (-Real.log (255 / (a : ℝ) - 1))) := by
      unfold splatAlphaFromByte
      rw [if_neg (by omega), if_neg (by omega)]
    have harg : 255 / (a : ℝ) - 1 = (255 - a) / a := by
      field_simp
    have hlogneg : -Real.log (255 / (a : ℝ) - 1) =
        Real.log ((a : ℝ) / (255 - a)) := by
      rw [harg, ← Real.log_inv]
      congr 1
      field_simp
    rw [hk, hsp, hlogneg, MAX_LOGIT]
    rw [max_eq_right hlog_ge, min_eq_right hlog_le]
  · have hval : ksplatAlphaFromByte 255 =
        Real.log ((1 - 1 / 1000000) / (1 - (1 - 1 / 1000000))) := by
      unfold ksplatAlphaFromByte
      norm_num
    have harg : ((1 : ℝ) - 1 / 1000000) / (1 - (1 - 1 / 1000000)) = 999999 := by
      norm_num
    rw [hval, harg, MAX_LOGIT, ← Real.log_exp 10]
    apply Real.log_lt_log (Real.exp_pos 10)
    linarith [exp_ten_lt]

/-- C4 witness: the interior-byte agreement at the concrete byte 128,
via the amended theorem. -/
theorem ksplatAlpha_matches_splat_witness :
    ksplatAlphaFromByte 128 = splatAlphaFromByte 128 :=
  ksplatAlpha_matches_splat_on_interior.1 128 (by norm_num) (by norm_num)

/-! ## SOG quaternion encoding (src/src/io/sog_writer.cpp lines 182-204)

`EncodeQuaternion` receives the raw IR components `[w,x,y,z]`
(`SogWriter::Write` lines 254-261 passes `ir.rotations` through
unchanged); it never normalizes them. -/

/-- Closed form of the strict-greater argmax loop over `|q[0..3]|`
(sog_writer.cpp lines 184-191; ties keep the earlier index). -/
noncomputable def maxAbsIdx4 (q0 q1 q2 q3 : ℝ) : ℕ :=
  if |q3| > max (max |q0| |q1|) |q2| then 3
  else if |q2| > max |q0| |q1| then 2
  else if |q1| > |q0| then 1
  else 0

/-- One stored byte as the code computes it (line 200-201):
`round(clamp((q_i/inv_sqrt2 + 1)·0.5, 0, 1) · 255)`, with the sign
flip `s` from the negation step already applied to the component. -/
noncomputable def sogByteCode (s v : ℝ) : ℕ :=
  (round ((min 1 (max 0 ((s * v / (1 / Real.sqrt 2) + 1) * 0.5))) * 255)).toNat

/-- One stored byte as the claim's formula states it:
`round(clamp(q_i/(1/√2) + 1, 0, 2)/2 · 255)`. -/
noncomputable def sogByteSpec (s v : ℝ) : ℕ :=
  (round ((min 2 (max 0 (s * v / (1 / Real.sqrt 2) + 1))) / 2 * 255)).toNat

/-- Shared assembly of the quaternion texture texel: find the largest
component, flip signs so it is non-negative, store the three non-max
components (in w,x,y,z order) through `byte`, and tag the alpha
channel with `252 + max_idx`. -/
noncomputable def sogQuatAssemble (byte : ℝ → ℝ → ℕ) (w x y z : ℝ) :
    List ℕ × ℕ :=
  let m := maxAbsIdx4 w x y z
  let qm := if m = 0 then w else if m = 1 then x else if m = 2 then y else z
  let s : ℝ := if qm < 0 then -1 else 1
  (if m = 0 then [byte s x, byte s y, byte s z]
   else if m = 1 then [byte s w, byte s y, byte s z]
   else if m = 2 then [byte s w, byte s x, byte s z]
   else [byte s w, byte s x, byte s y], 252 + m)

/-- `EncodeQuaternion` (sog_writer.cpp lines 182-204): operates on the
raw components, no normalization. -/
noncomputable def EncodeQuaternion (w x y z : ℝ) : List ℕ × ℕ :=
  sogQuatAssemble sogByteCode w x y z

/-- The claim's encoder, following the spec text: FIRST normalize the
quaternion, then negate and store with the claim's byte formula. -/
noncomputable def EncodeQuaternionSpec (w x y z : ℝ) : List ℕ × ℕ :=
  sogQuatAssemble sogByteSpec
    (w / Real.sqrt (w * w + x * x + y * y + z * z))
    (x / Real.sqrt (w * w + x * x + y * y + z * z))
    (y / Real.sqrt (w * w + x * x + y * y + z * z))
    (z / Real.sqrt (w * w + x * x + y * y + z * z))

theorem sogByte_code_eq_spec (s v : ℝ) : sogByteCode s v = sogByteSpec s v := by
  unfold sogByteCode sogByteSpec
  have key : ∀ u : ℝ, min 1 (max 0 (u * 0.5)) = min 2 (max 0 u) / 2 := by
    intro u
    rcases le_total u 0 with h | h
    · rw [max_eq_left (by linarith), max_eq_left (by nlinarith)]
      norm_num
    · rw [max_eq_right (by linarith), max_eq_right (by nlinarith)]
      rcases le_total u 2 with h2 | h2
      · rw [min_eq_right (by linarith), min_eq_right (by linarith)]
        ring
      · rw [min_eq_left (by linarith), min_eq_left (by linarith)]
        norm_num
  rw [key]

/-- C5 (amended): for every quaternion (unit or not), the SOG writer
encodes the RAW components: it negates so the largest-magnitude
component is non-negative, stores the three non-max components as
`round(clamp(q_i/(1/√2) + 1, 0, 2)/2 · 255)` in the RGB channels and
`252 + max_idx` in alpha — but it performs NO normalization. -/
theorem sogEncodeQuaternion_raw_formula (w x y z : ℝ) :
    EncodeQuaternion w x y z = sogQuatAssemble sogByteSpec w x y z := by
  unfold EncodeQuaternion
  unfold sogQuatAssemble
  simp only [sogByte_code_eq_spec]

theorem sqrt_two_gt : (1.4142 : ℝ) < Real.sqrt 2 := by
  rw [Real.lt_sqrt (by norm_num)]; norm_num

theorem sqrt_two_lt : Real.sqrt 2 < 1.4143 := by
  rw [Real.sqrt_lt' (by norm_num)]; norm_num

theorem sqrt54_gt : (1.1180 : ℝ) < Real.sqrt (5/4) := by
  rw [Real.lt_sqrt (by norm_num)]; norm_num

theorem sqrt54_lt : Real.sqrt (5/4) < 1.1181 := by
  rw [Real.sqrt_lt' (by norm_num)]; norm_num

theorem sogByteCode_cex : sogByteCode 1 (1/2) = 218 := by
  have ha1 := sqrt_two_gt
  have ha2 := sqrt_two_lt
  unfold sogByteCode
  have hs2 : Real.sqrt 2 ≠ 0 := by positivity
  have ht : (1 : ℝ) * (1/2) / (1 / Real.sqrt 2) + 1 = Real.sqrt 2 / 2 + 1 := by
    field_simp
  rw [ht]
  rw [max_eq_right (by nlinarith), min_eq_right (by nlinarith)]
  have hround : round ((Real.sqrt 2 / 2 + 1) * 0.5 * 255) = (218 : ℤ) := by
    rw [round_eq, Int.floor_eq_iff]
    constructor
    · push_cast; nlinarith
    · push_cast; nlinarith
  rw [hround]
  rfl

theorem sogByteSpec_cex : sogByteSpec 1 ((1/2) / Real.sqrt (5/4)) = 208 := by
  have hb1 := sqrt54_gt
  have hb2 := sqrt54_lt
  have hb : (0:ℝ) < Real.sqrt (5/4) := Real.sqrt_pos.mpr (by norm_num)
  have ha1 := sqrt_two_gt
  have ha2 := sqrt_two_lt
  unfold sogByteSpec
  have hs2 : Real.sqrt 2 ≠ 0 := by positivity
  have hsb : Real.sqrt (5/4) ≠ 0 := ne_of_gt hb
  have ht : (1 : ℝ) * ((1/2) / Real.sqrt (5/4)) / (1 / Real.sqrt 2) + 1 =
      Real.sqrt 2 / (2 * Real.sqrt (5/4)) + 1 := by
    field_simp
    ring
  rw [ht]
  have htb : (0.6324 : ℝ) < Real.sqrt 2 / (2 * Real.sqrt (5/4)) ∧
      Real.sqrt 2 / (2 * Real.sqrt (5/4)) < 0.6326 := by
    constructor
    · rw [lt_div_iff (by positivity)]; nlinarith
    · rw [div_lt_iff (by positivity)]; nlinarith
  rw [max_eq_right (by nlinarith [htb.1]), min_eq_right (by nlinarith [htb.2])]
  have hround : round ((Real.sqrt 2 / (2 * Real.sqrt (5/4)) + 1) / 2 * 255) =
      (208 : ℤ) := by
    rw [round_eq, Int.floor_eq_iff]
    constructor
    · push_cast; nlinarith [htb.1]
    · push_cast; nlinarith [htb.2]
  rw [hround]
  rfl

theorem maxAbsIdx4_cex_code : maxAbsIdx4 1 (1/2) 0 0 = 0 := by
  unfold maxAbsIdx4
  norm_num
  rw [abs_of_nonneg]
  · norm_num
  · norm_num

theorem maxAbsIdx4_cex_spec :
    maxAbsIdx4 (1 / Real.sqrt (5/4)) ((1/2) / Real.sqrt (5/4)) 0 0 = 0 := by
  have hb : (0:ℝ) < Real.sqrt (5/4) := Real.sqrt_pos.mpr (by norm_num)
  have h1 : ¬ (|(1/2) / Real.sqrt (5/4)| > |1 / Real.sqrt (5/4)|) := by
    rw [abs_of_pos (by positivity), abs_of_pos (by positivity), not_lt]
    exact div_le_div_of_nonneg_right (by norm_num) (le_of_lt hb)
  have h2 : ¬ (|(0:ℝ)| >
      max |1 / Real.sqrt (5/4)| |(1/2) / Real.sqrt (5/4)|) := by
    rw [abs_zero, not_lt]
    exact le_trans (abs_nonneg _) (le_max_left _ _)
  have h3 : ¬ (|(0:ℝ)| >
      max (max |1 / Real.sqrt (5/4)| |(1/2) / Real.sqrt (5/4)|) |(0:ℝ)|) := by
    rw [abs_zero, not_lt]
    exact le_trans (abs_nonneg _) (le_trans (le_max_left _ _) (le_max_left _ _))
  unfold maxAbsIdx4
  rw [if_neg h3, if_neg h2, if_neg h1]

/-- C5 counterexample: on the non-unit quaternion `(w,x,y,z) =
(1, 1/2, 0, 0)` the SOG writer's encoder stores first byte 218 (raw
component `1/2`), while the claimed normalize-first encoding stores
208 (normalized component `1/√5`): the writer does not normalize the
quaternion before encoding, refuting the claim for non-unit inputs. -/
theorem sogEncodeQuaternion_no_normalization :
    (EncodeQuaternion 1 (1/2) 0 0).1.getD 0 0 = 218 ∧
      (EncodeQuaternionSpec 1 (1/2) 0 0).1.getD 0 0 = 208 ∧
      EncodeQuaternion 1 (1/2) 0 0 ≠ EncodeQuaternionSpec 1 (1/2) 0 0 := by
  have hb : (0:ℝ) < Real.sqrt (5/4) := Real.sqrt_pos.mpr (by norm_num)
  have hcode : (EncodeQuaternion 1 (1/2) 0 0).1.getD 0 0 = 218 := by
    unfold EncodeQuaternion sogQuatAssemble
    simp only [maxAbsIdx4_cex_code, reduceIte]
    rw [if_neg (by norm_num : ¬ (1:ℝ) < 0)]
    simpa using sogByteCode_cex
  have harg : (1:ℝ) * 1 + 1/2 * (1/2) + 0 * 0 + 0 * 0 = 5/4 := by norm_num
  have hspec : (EncodeQuaternionSpec 1 (1/2) 0 0).1.getD 0 0 = 208 := by
    unfold EncodeQuaternionSpec sogQuatAssemble
    simp only [harg, zero_div, maxAbsIdx4_cex_spec, reduceIte]
    rw [if_neg (not_lt.mpr (by positivity : (0:ℝ) ≤ 1 / Real.sqrt (5/4)))]
    simpa using sogByteSpec_cex
  refine ⟨hcode, hspec, ?_⟩
  intro h
  have h0 := congrArg (fun p : List ℕ × ℕ => p.1.getD 0 0) h
  simp only at h0
  rw [hcode, hspec] at h0
  exact absurd h0 (by norm_num)

/-! ## Compressed-PLY quaternion codec
(writer `packRot` in src/unnamed/part_014 lines 296-355, reader
`unpackRot` in src/src/io/ply_compressed_reader.cpp lines 64-133)

`packRot`'s four parameters are written `(x, y, z, w)` in the source
but receive the IR components `[w, x, y, z]` positionally (the writer
passes `tempRotations[i*4+0..3]`), so index 0 of the packed tag is the
IR `w` component, matching the reader's `0:w` convention.  The
parameters here are named `q0..q3` for the IR components in storage
order; the writer's strict-greater argmax loop is the same closed form
as `maxAbsIdx4`. -/

/-- `packUnorm` (part_014 lines 296-300): `clamp(floor(v·maxVal+0.5),
0, maxVal)` (the uint32 cast of a negative float is modelled as 0; all
call sites pass non-negative values). -/
noncomputable def packUnorm (v : ℝ) (bits : ℕ) : ℕ :=
  if v * (((2 : ℕ) ^ bits - 1 : ℕ) : ℝ) + 0.5 < 0 then 0
  else min ((2 : ℕ) ^ bits - 1) ⌊v * (((2 : ℕ) ^ bits - 1 : ℕ) : ℝ) + 0.5⌋.toNat

/-- One stored 10-bit rotation component (part_014 line 350):
`packUnorm(a_i · (√2·0.5) + 0.5, 10)`. -/
noncomputable def packRotQuantize (c : ℝ) : ℕ :=
  packUnorm (c * (Real.sqrt 2 * 0.5) + 0.5) 10

/-- Component of index `m` of a quaternion in storage order. -/
noncomputable def quatPick (m : ℕ) (q0 q1 q2 q3 : ℝ) : ℝ :=
  if m = 0 then q0 else if m = 1 then q1 else if m = 2 then q2 else q3

/-- Sign flip applied by `packRot` (lines 337-343): `-1` when the
largest-magnitude component is negative, else `1`. -/
noncomputable def packRotSign (q0 q1 q2 q3 : ℝ) : ℝ :=
  if quatPick (maxAbsIdx4 q0 q1 q2 q3) q0 q1 q2 q3 < 0 then -1 else 1

/-- Bit assembly of the tag and the three stored components
(lines 345-354): the loop shifts the tag left three times, appending
the quantized components in index order, skipping the largest. -/
noncomputable def packRotBody (m : ℕ) (s q0 q1 q2 q3 : ℝ) : ℕ :=
  m * 2 ^ 30 +
    (if m = 0 then
      packRotQuantize (s * q1) * 2 ^ 20 + packRotQuantize (s * q2) * 2 ^ 10 +
        packRotQuantize (s * q3)
    else if m = 1 then
      packRotQuantize (s * q0) * 2 ^ 20 + packRotQuantize (s * q2) * 2 ^ 10 +
        packRotQuantize (s * q3)
    else if m = 2 then
      packRotQuantize (s * q0) * 2 ^ 20 + packRotQuantize (s * q1) * 2 ^ 10 +
        packRotQuantize (s * q3)
    else
      packRotQuantize (s * q0) * 2 ^ 20 + packRotQuantize (s * q1) * 2 ^ 10 +
        packRotQuantize (s * q2))

/-- Tag-and-pack step of `packRot` (lines 327-354) on already
normalized components: find the largest-magnitude index, flip signs so
it is non-negative, then pack the tag and the three remaining
components in index order into 2+10+10+10 bits. -/
noncomputable def packRotAssemble (q0 q1 q2 q3 : ℝ) : ℕ :=
  packRotBody (maxAbsIdx4 q0 q1 q2 q3) (packRotSign q0 q1 q2 q3) q0 q1 q2 q3

/-- `packRot` (part_014 lines 314-355): normalize (degenerating to the
tag-0 identity when the norm is under 1e-8), then tag and pack. -/
noncomputable def packRot (q0 q1 q2 q3 : ℝ) : ℕ :=
  if Real.sqrt (q0 * q0 + q1 * q1 + q2 * q2 + q3 * q3) < 1 / 100000000 then
    packRotAssemble 1 0 0 0
  else
    packRotAssemble
      (q0 / Real.sqrt (q0 * q0 + q1 * q1 + q2 * q2 + q3 * q3))
      (q1 / Real.sqrt (q0 * q0 + q1 * q1 + q2 * q2 + q3 * q3))
      (q2 / Real.sqrt (q0 * q0 + q1 * q1 + q2 * q2 + q3 * q3))
      (q3 / Real.sqrt (q0 * q0 + q1 * q1 + q2 * q2 + q3 * q3))

/-- Quaternion record of the compressed-PLY reader, in IR `[w,x,y,z]`
naming. -/
structure Quat where
  w : ℝ
  x : ℝ
  y : ℝ
  z : ℝ

/-- `unpackUnorm` (ply_compressed_reader.cpp lines 68-72):
`(v & mask) / mask`. -/
noncomputable def unpackUnormR (value : ℕ) (bits : ℕ) : ℝ :=
  ((value % 2 ^ bits : ℕ) : ℝ) / (((2 : ℕ) ^ bits - 1 : ℕ) : ℝ)

/-- One decoded stored rotation component (reader lines 97-99):
map `[0,1]` back to `[-1/√2, 1/√2]`. -/
noncomputable def unpackSlot (v : ℕ) : ℝ :=
  (unpackUnormR v 10 - 0.5) * (1 / (Real.sqrt 2 * 0.5))

/-- The reconstructed largest component (reader line 102). -/
noncomputable def unpackRotM (a b c : ℝ) : ℝ :=
  Real.sqrt (max 0 (1 - (a * a + b * b + c * c)))

/-- The reader's `switch (which)` (lines 106-131) placing the three
stored components and the reconstructed one. -/
noncomputable def unpackRotCases (which : ℕ) (a b c : ℝ) : Quat :=
  if which = 0 then { w := unpackRotM a b c, x := a, y := b, z := c }
  else if which = 1 then { w := a, x := unpackRotM a b c, y := b, z := c }
  else if which = 2 then { w := a, x := b, y := unpackRotM a b c, z := c }
  else { w := a, x := b, y := c, z := unpackRotM a b c }

/-- `unpackRot` (ply_compressed_reader.cpp lines 92-133).  The
`% 2^32` reflects the `uint32_t` parameter type. -/
noncomputable def unpackRot (value : ℕ) : Quat :=
  unpackRotCases (value % 2 ^ 32 / 2 ^ 30)
    (unpackSlot (value % 2 ^ 32 / 2 ^ 20))
    (unpackSlot (value % 2 ^ 32 / 2 ^ 10))
    (unpackSlot (value % 2 ^ 32))

/-- Writer-then-reader round trip of one IR quaternion `[w,x,y,z]`. -/
noncomputable def cplyQuatRoundTrip (w x y z : ℝ) : Quat :=
  unpackRot (packRot w x y z)

/-- Sign-canonicalized quaternion: negated when its largest-magnitude
component (strict-greater argmax, ties to the earlier index) is
negative. -/
noncomputable def canonQuat (w x y z : ℝ) : Quat :=
  if quatPick (maxAbsIdx4 w x y z) w x y z < 0 then
    { w := -w, x := -x, y := -y, z := -z }
  else { w := w, x := x, y := y, z := z }

/-- Chebyshev distance between a quaternion `[w,x,y,z]` and a `Quat`. -/
noncomputable def quatInfDist (w x y z : ℝ) (q : Quat) : ℝ :=
  max (max (max |w - q.w| |x - q.x|) |y - q.y|) |z - q.z|


/-- Component of index `i` of a `Quat` in storage order `[w,x,y,z]`. -/
noncomputable def qcomp (i : ℕ) (q : Quat) : ℝ :=
  if i = 0 then q.w else if i = 1 then q.x else if i = 2 then q.y else q.z

theorem sqrt2_mul_self : Real.sqrt 2 * Real.sqrt 2 = 2 :=
  Real.mul_self_sqrt (by norm_num)

theorem sqrt2_pos : (0 : ℝ) < Real.sqrt 2 := Real.sqrt_pos.mpr (by norm_num)

theorem abs_le_sqrt2div2 (x y : ℝ) (hxy : |x| ≤ |y|) (hsum : x * x + y * y ≤ 1) :
    |x| ≤ Real.sqrt 2 / 2 := by
  nlinarith [sqrt2_mul_self, sqrt2_pos, abs_nonneg x, abs_nonneg y,
    abs_mul_abs_self x, abs_mul_abs_self y]

theorem packRotSign_cases (q0 q1 q2 q3 : ℝ) :
    packRotSign q0 q1 q2 q3 = 1 ∨ packRotSign q0 q1 q2 q3 = -1 := by
  unfold packRotSign
  split_ifs <;> simp

theorem canonQuat_comp (q0 q1 q2 q3 : ℝ) (j : ℕ) :
    qcomp j (canonQuat q0 q1 q2 q3) =
      packRotSign q0 q1 q2 q3 * quatPick j q0 q1 q2 q3 := by
  unfold canonQuat packRotSign qcomp quatPick
  split_ifs <;> simp

theorem packRot_unit (q0 q1 q2 q3 : ℝ)
    (h : q0 * q0 + q1 * q1 + q2 * q2 + q3 * q3 = 1) :
    packRot q0 q1 q2 q3 = packRotAssemble q0 q1 q2 q3 := by
  unfold packRot
  rw [h, Real.sqrt_one]
  norm_num

theorem packRotBody_m0 (s q0 q1 q2 q3 : ℝ) :
    packRotBody 0 s q0 q1 q2 q3 =
      0 * 2 ^ 30 + (packRotQuantize (s * q1) * 2 ^ 20 +
        packRotQuantize (s * q2) * 2 ^ 10 + packRotQuantize (s * q3)) := by
  unfold packRotBody
  norm_num

theorem packRotBody_m1 (s q0 q1 q2 q3 : ℝ) :
    packRotBody 1 s q0 q1 q2 q3 =
      1 * 2 ^ 30 + (packRotQuantize (s * q0) * 2 ^ 20 +
        packRotQuantize (s * q2) * 2 ^ 10 + packRotQuantize (s * q3)) := by
  unfold packRotBody
  norm_num

theorem packRotBody_m2 (s q0 q1 q2 q3 : ℝ) :
    packRotBody 2 s q0 q1 q2 q3 =
      2 * 2 ^ 30 + (packRotQuantize (s * q0) * 2 ^ 20 +
        packRotQuantize (s * q1) * 2 ^ 10 + packRotQuantize (s * q3)) := by
  unfold packRotBody
  norm_num

theorem packRotBody_m3 (s q0 q1 q2 q3 : ℝ) :
    packRotBody 3 s q0 q1 q2 q3 =
      3 * 2 ^ 30 + (packRotQuantize (s * q0) * 2 ^ 20 +
        packRotQuantize (s * q1) * 2 ^ 10 + packRotQuantize (s * q2)) := by
  unfold packRotBody
  norm_num

theorem packRotQuantize_lt (v : ℝ) : packRotQuantize v < 1024 := by
  unfold packRotQuantize packUnorm
  split_ifs
  · norm_num
  · have h := min_le_left ((2 : ℕ) ^ 10 - 1)
      ⌊(v * (Real.sqrt 2 * 0.5) + 0.5) * (((2 : ℕ) ^ 10 - 1 : ℕ) : ℝ) + 0.5⌋.toNat
    omega

theorem unpackSlot_congr (v w : ℕ) (h : v % 2 ^ 10 = w % 2 ^ 10) :
    unpackSlot v = unpackSlot w := by
  unfold unpackSlot unpackUnormR
  rw [h]

/-- Field extraction: a packed `tag·2^30 + a·2^20 + b·2^10 + c` word
decodes to its four fields. -/
theorem unpackRot_fields (m A B C : ℕ) (hm : m ≤ 3) (hA : A < 1024) (hB : B < 1024)
    (hC : C < 1024) :
    unpackRot (m * 2 ^ 30 + (A * 2 ^ 20 + B * 2 ^ 10 + C)) =
      unpackRotCases m (unpackSlot A) (unpackSlot B) (unpackSlot C) := by
  unfold unpackRot
  have h30 : (m * 2 ^ 30 + (A * 2 ^ 20 + B * 2 ^ 10 + C)) % 2 ^ 32 / 2 ^ 30 = m := by omega
  have h20 : (m * 2 ^ 30 + (A * 2 ^ 20 + B * 2 ^ 10 + C)) % 2 ^ 32 / 2 ^ 20 % 2 ^ 10 =
      A % 2 ^ 10 := by omega
  have h10 : (m * 2 ^ 30 + (A * 2 ^ 20 + B * 2 ^ 10 + C)) % 2 ^ 32 / 2 ^ 10 % 2 ^ 10 =
      B % 2 ^ 10 := by omega
  have h0 : (m * 2 ^ 30 + (A * 2 ^ 20 + B * 2 ^ 10 + C)) % 2 ^ 32 % 2 ^ 10 =
      C % 2 ^ 10 := by omega
  rw [h30, unpackSlot_congr _ _ h20, unpackSlot_congr _ _ h10, unpackSlot_congr _ _ h0]

/-- Quantization error of one stored rotation slot: for `|v| ≤ √2/2`
(always true of a non-largest component of a unit quaternion) the
quantize-then-decode error is at most `√2/2046`, and this bound is
attained at `v = 0`. -/
theorem slot_err (v : ℝ) (hv : |v| ≤ Real.sqrt 2 / 2) :
    |unpackSlot (packRotQuantize v) - v| ≤ Real.sqrt 2 / 2046 := by
  have hs2 := sqrt2_mul_self
  have hs2p := sqrt2_pos
  set u : ℝ := v * (Real.sqrt 2 * 0.5) + 0.5 with hu
  clear_value u
  have habs : |v * (Real.sqrt 2 * 0.5)| ≤ 0.5 := by
    rw [abs_mul, abs_of_pos (show (0:ℝ) < Real.sqrt 2 * 0.5 by positivity)]
    nlinarith [abs_nonneg v]
  have hu0 : 0 ≤ u := by
    have := (abs_le.mp habs).1
    rw [hu]; linarith
  have hu1 : u ≤ 1 := by
    have := (abs_le.mp habs).2
    rw [hu]; linarith
  have hscale : 0 ≤ u * 1023 := mul_nonneg hu0 (by norm_num)
  have hscale1 : u * 1023 ≤ 1023 := by linarith
  have hcast : (((2 : ℕ) ^ 10 - 1 : ℕ) : ℝ) = 1023 := by norm_num
  have hnotneg : ¬ (u * (((2 : ℕ) ^ 10 - 1 : ℕ) : ℝ) + 0.5 < 0) := by
    rw [hcast]; linarith
  have hq : packRotQuantize v =
      min ((2 : ℕ) ^ 10 - 1) ⌊u * (((2 : ℕ) ^ 10 - 1 : ℕ) : ℝ) + 0.5⌋.toNat := by
    unfold packRotQuantize packUnorm
    rw [← hu, if_neg hnotneg]
  set n : ℤ := ⌊u * 1023 + 0.5⌋ with hn
  clear_value n
  have hq2 : packRotQuantize v = min ((2 : ℕ) ^ 10 - 1) n.toNat := by
    rw [hq, hcast, ← hn]
  have hn0 : 0 ≤ n := by
    rw [hn]
    exact Int.floor_nonneg.mpr (by linarith)
  have hnle : (n : ℝ) ≤ u * 1023 + 0.5 := by
    rw [hn]; exact Int.floor_le _
  have hn1024r : (n : ℝ) < 1024 := by linarith
  have hn1024 : n < 1024 := by exact_mod_cast hn1024r
  have htn : n.toNat ≤ (2 : ℕ) ^ 10 - 1 := by omega
  have hq3 : packRotQuantize v = n.toNat := by
    rw [hq2, min_eq_right htn]
  have hmod : n.toNat % 2 ^ 10 = n.toNat := Nat.mod_eq_of_lt (by omega)
  have hcastn : ((n.toNat : ℕ) : ℝ) = (n : ℝ) := by
    exact_mod_cast congrArg (Int.cast : ℤ → ℝ) (Int.toNat_of_nonneg hn0)
  have hround : |(n : ℝ) - u * 1023| ≤ 1 / 2 := by
    have h1 : (round (u * 1023) : ℤ) = n := by
      rw [round_eq, hn]
      norm_num
    have h2 := abs_sub_round (u * 1023)
    rw [h1] at h2
    rw [abs_sub_comm]
    exact h2
  have hslot : unpackSlot (packRotQuantize v) =
      ((n : ℝ) / 1023 - 0.5) * (1 / (Real.sqrt 2 * 0.5)) := by
    rw [hq3]
    unfold unpackSlot unpackUnormR
    rw [hmod, hcastn, hcast]
  have hvrep : v = (u - 0.5) * Real.sqrt 2 := by
    have h1 : (u - 0.5) * Real.sqrt 2 = v * (Real.sqrt 2 * Real.sqrt 2) * 0.5 := by
      rw [hu]; ring
    rw [hs2] at h1
    linarith [h1]
  have hinv : 1 / (Real.sqrt 2 * 0.5) = Real.sqrt 2 := by
    rw [div_eq_iff (by positivity)]
    nlinarith
  rw [hslot, hinv]
  have hfin : ((n : ℝ) / 1023 - 0.5) * Real.sqrt 2 - v =
      ((n : ℝ) - u * 1023) / 1023 * Real.sqrt 2 := by
    rw [hvrep]; ring
  rw [hfin, abs_mul, abs_of_pos hs2p, abs_div,
    abs_of_pos (show (0:ℝ) < 1023 by norm_num)]
  have hd : |(n : ℝ) - u * 1023| / 1023 ≤ 1 / 2046 := by
    rw [div_le_div_iff₀ (by norm_num) (by norm_num)]
    linarith
  calc |(n : ℝ) - u * 1023| / 1023 * Real.sqrt 2 ≤ 1 / 2046 * Real.sqrt 2 :=
        mul_le_mul_of_nonneg_right hd (le_of_lt sqrt2_pos)
    _ = Real.sqrt 2 / 2046 := by ring

theorem maxAbsIdx4_identity : maxAbsIdx4 1 0 0 0 = 0 := by
  unfold maxAbsIdx4
  simp [abs_zero, abs_one]
  norm_num

theorem packRotSign_identity : packRotSign 1 0 0 0 = 1 := by
  unfold packRotSign
  rw [maxAbsIdx4_identity]
  norm_num [quatPick]

theorem packRotQuantize_zero : packRotQuantize 0 = 512 := by
  unfold packRotQuantize packUnorm
  norm_num
  rfl

theorem inv_halfSqrt2 : 1 / (Real.sqrt 2 * 0.5) = Real.sqrt 2 := by
  rw [div_eq_iff (by positivity)]
  nlinarith [sqrt2_mul_self]

theorem unpackSlot_512 : unpackSlot 512 = Real.sqrt 2 / 2046 := by
  unfold unpackSlot unpackUnormR
  rw [inv_halfSqrt2]
  have h1 : ((512 % 2 ^ 10 : ℕ) : ℝ) = 512 := by norm_num
  have h2 : (((2 : ℕ) ^ 10 - 1 : ℕ) : ℝ) = 1023 := by norm_num
  rw [h1, h2, show (512 : ℝ) / 1023 - 0.5 = 1 / 2046 by norm_num]
  ring

/-- At the identity quaternion all three stored slots quantize `0` to
code `512`, which decodes to `√2/2046`, not `0`. -/
theorem identity_roundtrip : cplyQuatRoundTrip 1 0 0 0 =
    unpackRotCases 0 (unpackSlot 512) (unpackSlot 512) (unpackSlot 512) := by
  unfold cplyQuatRoundTrip
  rw [packRot_unit 1 0 0 0 (by norm_num)]
  unfold packRotAssemble
  rw [maxAbsIdx4_identity, packRotSign_identity, packRotBody_m0,
    show (1 : ℝ) * 0 = 0 by norm_num, packRotQuantize_zero]
  exact unpackRot_fields 0 512 512 512 (by norm_num) (by norm_num) (by norm_num)
    (by norm_num)

/-- C6 counterexample: the identity quaternion is unit and already
sign-canonical, yet its compressed-PLY encode→decode round trip has
Chebyshev error `√2/2046` (each stored slot decodes `512/1023 - 1/2`
of the full `[-1/√2, 1/√2]` range), which exceeds the claimed bound
`1/(2·(2^10−1))/√2 = √2/4092`. -/
theorem cplyQuat_error_bound_claim_false :
    (1 : ℝ) * 1 + 0 * 0 + 0 * 0 + 0 * 0 = 1 ∧
    canonQuat 1 0 0 0 = { w := 1, x := 0, y := 0, z := 0 } ∧
    ¬ (quatInfDist 1 0 0 0 (cplyQuatRoundTrip 1 0 0 0) ≤
        1 / (2 * (2 ^ 10 - 1)) / Real.sqrt 2) := by
  refine ⟨by norm_num, ?_, ?_⟩
  · unfold canonQuat
    rw [maxAbsIdx4_identity]
    norm_num [quatPick]
  · intro hle
    have hb : (1 : ℝ) / (2 * (2 ^ 10 - 1)) / Real.sqrt 2 = Real.sqrt 2 / 4092 := by
      rw [div_div, div_eq_div_iff (by positivity) (by norm_num)]
      linear_combination (-2046 : ℝ) * sqrt2_mul_self
    rw [hb] at hle
    have hrtx : (cplyQuatRoundTrip 1 0 0 0).x = Real.sqrt 2 / 2046 := by
      rw [identity_roundtrip]
      simp [unpackRotCases, unpackSlot_512]
    have hxv : |(0 : ℝ) - (cplyQuatRoundTrip 1 0 0 0).x| = Real.sqrt 2 / 2046 := by
      rw [hrtx, zero_sub, abs_neg, abs_of_pos (by positivity)]
    have hge : Real.sqrt 2 / 2046 ≤ quatInfDist 1 0 0 0 (cplyQuatRoundTrip 1 0 0 0) := by
      unfold quatInfDist
      rw [← hxv]
      exact le_trans (le_trans (le_max_right _ _) (le_max_left _ _)) (le_max_left _ _)
    linarith [sqrt2_pos]

/-- C6 (amended): for a unit quaternion, every stored component (every
index other than the largest-magnitude one) of the compressed-PLY
encode→decode round trip is within `√2/2046 = 1/(2^10−1)/√2` of the
sign-canonicalized quaternion — twice the claimed `√2/4092`, and tight
at the identity quaternion. -/
theorem cplyQuat_stored_component_bound (q0 q1 q2 q3 : ℝ)
    (hunit : q0 * q0 + q1 * q1 + q2 * q2 + q3 * q3 = 1)
    (i : ℕ) (hi : i ≤ 3) (hne : i ≠ maxAbsIdx4 q0 q1 q2 q3) :
    |qcomp i (cplyQuatRoundTrip q0 q1 q2 q3) - qcomp i (canonQuat q0 q1 q2 q3)| ≤
      Real.sqrt 2 / 2046 := by
  have hsabs : ∀ t : ℝ, |packRotSign q0 q1 q2 q3 * t| = |t| := by
    intro t
    rcases packRotSign_cases q0 q1 q2 q3 with h | h <;> rw [h] <;> simp
  rw [canonQuat_comp]
  unfold cplyQuatRoundTrip
  rw [packRot_unit _ _ _ _ hunit]
  unfold packRotAssemble
  by_cases c3 : |q3| > max (max |q0| |q1|) |q2|
  · have hm : maxAbsIdx4 q0 q1 q2 q3 = 3 := by
      unfold maxAbsIdx4
      rw [if_pos c3]
    rw [hm] at hne ⊢
    have h0m : |q0| ≤ |q3| :=
      le_trans (le_trans (le_max_left _ _) (le_max_left _ _)) (le_of_lt c3)
    have h1m : |q1| ≤ |q3| :=
      le_trans (le_trans (le_max_right _ _) (le_max_left _ _)) (le_of_lt c3)
    have h2m : |q2| ≤ |q3| := le_trans (le_max_right _ _) (le_of_lt c3)
    have b0 : |q0| ≤ Real.sqrt 2 / 2 := abs_le_sqrt2div2 _ q3 h0m
      (by linarith [mul_self_nonneg q1, mul_self_nonneg q2])
    have b1 : |q1| ≤ Real.sqrt 2 / 2 := abs_le_sqrt2div2 _ q3 h1m
      (by linarith [mul_self_nonneg q0, mul_self_nonneg q2])
    have b2 : |q2| ≤ Real.sqrt 2 / 2 := abs_le_sqrt2div2 _ q3 h2m
      (by linarith [mul_self_nonneg q0, mul_self_nonneg q1])
    rw [packRotBody_m3, unpackRot_fields 3 _ _ _ (by norm_num) (packRotQuantize_lt _)
      (packRotQuantize_lt _) (packRotQuantize_lt _)]
    interval_cases i
    · simp only [unpackRotCases, qcomp, quatPick, reduceIte]
      exact slot_err _ (by rw [hsabs]; exact b0)
    · simp only [unpackRotCases, qcomp, quatPick, reduceIte]
      exact slot_err _ (by rw [hsabs]; exact b1)
    · simp only [unpackRotCases, qcomp, quatPick, reduceIte]
      exact slot_err _ (by rw [hsabs]; exact b2)
    · exact absurd rfl hne
  · by_cases c2 : |q2| > max |q0| |q1|
    · have hm : maxAbsIdx4 q0 q1 q2 q3 = 2 := by
        unfold maxAbsIdx4
        rw [if_neg c3, if_pos c2]
      rw [hm] at hne ⊢
      have h0m : |q0| ≤ |q2| := le_trans (le_max_left _ _) (le_of_lt c2)
      have h1m : |q1| ≤ |q2| := le_trans (le_max_right _ _) (le_of_lt c2)
      have h3m : |q3| ≤ |q2| :=
        le_trans (not_lt.mp c3) (max_le (max_le h0m h1m) le_rfl)
      have b0 : |q0| ≤ Real.sqrt 2 / 2 := abs_le_sqrt2div2 _ q2 h0m
        (by linarith [mul_self_nonneg q1, mul_self_nonneg q3])
      have b1 : |q1| ≤ Real.sqrt 2 / 2 := abs_le_sqrt2div2 _ q2 h1m
        (by linarith [mul_self_nonneg q0, mul_self_nonneg q3])
      have b3 : |q3| ≤ Real.sqrt 2 / 2 := abs_le_sqrt2div2 _ q2 h3m
        (by linarith [mul_self_nonneg q0, mul_self_nonneg q1])
      rw [packRotBody_m2, unpackRot_fields 2 _ _ _ (by norm_num) (packRotQuantize_lt _)
        (packRotQuantize_lt _) (packRotQuantize_lt _)]
      interval_cases i
      · simp only [unpackRotCases, qcomp, quatPick, reduceIte]
        exact slot_err _ (by rw [hsabs]; exact b0)
      · simp only [unpackRotCases, qcomp, quatPick, reduceIte]
        exact slot_err _ (by rw [hsabs]; exact b1)
      · exact absurd rfl hne
      · simp only [unpackRotCases, qcomp, quatPick, reduceIte]
        exact slot_err _ (by rw [hsabs]; exact b3)
    · by_cases c1 : |q1| > |q0|
      · have hm : maxAbsIdx4 q0 q1 q2 q3 = 1 := by
          unfold maxAbsIdx4
          rw [if_neg c3, if_neg c2, if_pos c1]
        rw [hm] at hne ⊢
        have h0m : |q0| ≤ |q1| := le_of_lt c1
        have h2m : |q2| ≤ |q1| := le_trans (not_lt.mp c2) (max_le h0m le_rfl)
        have h3m : |q3| ≤ |q1| :=
          le_trans (not_lt.mp c3) (max_le (max_le h0m le_rfl) h2m)
        have b0 : |q0| ≤ Real.sqrt 2 / 2 := abs_le_sqrt2div2 _ q1 h0m
          (by linarith [mul_self_nonneg q2, mul_self_nonneg q3])
        have b2 : |q2| ≤ Real.sqrt 2 / 2 := abs_le_sqrt2div2 _ q1 h2m
          (by linarith [mul_self_nonneg q0, mul_self_nonneg q3])
        have b3 : |q3| ≤ Real.sqrt 2 / 2 := abs_le_sqrt2div2 _ q1 h3m
          (by linarith [mul_self_nonneg q0, mul_self_nonneg q2])
        rw [packRotBody_m1, unpackRot_fields 1 _ _ _ (by norm_num) (packRotQuantize_lt _)
          (packRotQuantize_lt _) (packRotQuantize_lt _)]
        interval_cases i
        · simp only [unpackRotCases, qcomp, quatPick, reduceIte]
          exact slot_err _ (by rw [hsabs]; exact b0)
        · exact absurd rfl hne
        · simp only [unpackRotCases, qcomp, quatPick, reduceIte]
          exact slot_err _ (by rw [hsabs]; exact b2)
        · simp only [unpackRotCases, qcomp, quatPick, reduceIte]
          exact slot_err _ (by rw [hsabs]; exact b3)
      · have hm : maxAbsIdx4 q0 q1 q2 q3 = 0 := by
          unfold maxAbsIdx4
          rw [if_neg c3, if_neg c2, if_neg c1]
        rw [hm] at hne ⊢
        have h1m : |q1| ≤ |q0| := not_lt.mp c1
        have h2m : |q2| ≤ |q0| := le_trans (not_lt.mp c2) (max_le le_rfl h1m)
        have h3m : |q3| ≤ |q0| :=
          le_trans (not_lt.mp c3) (max_le (max_le le_rfl h1m) h2m)
        have b1 : |q1| ≤ Real.sqrt 2 / 2 := abs_le_sqrt2div2 _ q0 h1m
          (by linarith [mul_self_nonneg q2, mul_self_nonneg q3])
        have b2 : |q2| ≤ Real.sqrt 2 / 2 := abs_le_sqrt2div2 _ q0 h2m
          (by linarith [mul_self_nonneg q1, mul_self_nonneg q3])
        have b3 : |q3| ≤ Real.sqrt 2 / 2 := abs_le_sqrt2div2 _ q0 h3m
          (by linarith [mul_self_nonneg q1, mul_self_nonneg q2])
        rw [packRotBody_m0, unpackRot_fields 0 _ _ _ (by norm_num) (packRotQuantize_lt _)
          (packRotQuantize_lt _) (packRotQuantize_lt _)]
        interval_cases i
        · exact absurd rfl hne
        · simp only [unpackRotCases, qcomp, quatPick, reduceIte]
          exact slot_err _ (by rw [hsabs]; exact b1)
        · simp only [unpackRotCases, qcomp, quatPick, reduceIte]
          exact slot_err _ (by rw [hsabs]; exact b2)
        · simp only [unpackRotCases, qcomp, quatPick, reduceIte]
          exact slot_err _ (by rw [hsabs]; exact b3)

/-- C6 witness: the amended bound instantiated at the identity
quaternion and stored index 1. -/
theorem cplyQuat_stored_component_bound_witness :
    ((1 : ℝ) * 1 + 0 * 0 + 0 * 0 + 0 * 0 = 1 ∧ (1 : ℕ) ≤ 3 ∧
      (1 : ℕ) ≠ maxAbsIdx4 1 0 0 0) ∧
    |qcomp 1 (cplyQuatRoundTrip 1 0 0 0) - qcomp 1 (canonQuat 1 0 0 0)| ≤
      Real.sqrt 2 / 2046 :=
  ⟨⟨by norm_num, by norm_num, by rw [maxAbsIdx4_identity]; norm_num⟩,
    cplyQuat_stored_component_bound 1 0 0 0 (by norm_num) 1 (by norm_num)
      (by rw [maxAbsIdx4_identity]; norm_num)⟩

/-! ## Writers' empty-cloud guards
(src/src/io/splat_writer.cpp, src/unnamed/part_014 `KsplatWriter` and
`PlyCompressedWriter`, src/src/io/sog_writer.cpp)

The writers consume a `GaussianCloudIR`; at the float-class level that
is the same record as `SplatIR`, which is reused here.  Each model
mirrors its writer's early-return checks in source order; the pure
serialization work after the last fallible check is summarized as
`.ok ()` (the remaining bodies only build byte vectors).  `ValidateBasic`
is the shared validator already modelled as `ValidateBasicClass`. -/

/-- `static_cast<size_t>` of a signed value. -/
def toSizeT (n : ℤ) : ℕ := (n % 2 ^ 64).toNat

/-- `SplatWriter::Write` (splat_writer.cpp lines 33-58) up to its last
early return: strict-gated `ValidateBasic`, the `N == 0` check, then
the five size-consistency checks. -/
def splatWrite (ir : SplatIR) (strict : Bool) : Except String Unit :=
  if strict = true ∧ ValidateBasicClass ir strict ≠ none then
    .error ((ValidateBasicClass ir strict).getD "")
  else if ir.numPoints = 0 then
    .error "splat write failed: no points to write"
  else if ir.positions.length ≠ toSizeT ir.numPoints * 3 ∨
      ir.scales.length ≠ toSizeT ir.numPoints * 3 ∨
      ir.rotations.length ≠ toSizeT ir.numPoints * 4 ∨
      ir.alphas.length ≠ toSizeT ir.numPoints ∨
      ir.colors.length ≠ toSizeT ir.numPoints * 3 then
    .error "splat write failed: inconsistent data sizes"
  else .ok ()

/-- `KsplatWriter::Write` (part_014 lines 62-108) up to its last early
return: strict-gated `ValidateBasic`, the `N == 0` check, the five
size checks, then the SH size check. -/
def ksplatWrite (ir : SplatIR) (strict : Bool) : Except String Unit :=
  if strict = true ∧ ValidateBasicClass ir strict ≠ none then
    .error ((ValidateBasicClass ir strict).getD "")
  else if ir.numPoints = 0 then
    .error "ksplat write failed: no points to write"
  else if ir.positions.length ≠ toSizeT ir.numPoints * 3 ∨
      ir.scales.length ≠ toSizeT ir.numPoints * 3 ∨
      ir.rotations.length ≠ toSizeT ir.numPoints * 4 ∨
      ir.alphas.length ≠ toSizeT ir.numPoints ∨
      ir.colors.length ≠ toSizeT ir.numPoints * 3 then
    .error "ksplat write failed: inconsistent data sizes"
  else if ir.sh.length ≠ toSizeT ir.numPoints * (ShCoeffsPerPoint ir.shDegree).toNat ∧
      ir.sh ≠ [] then
    .error "ksplat write failed: inconsistent SH data size"
  else .ok ()

/-- `PlyCompressedWriter::Write` (part_014 lines 384-392): the
`numPoints <= 0` guard is the only early return. -/
def plyCompressedWrite (ir : SplatIR) (_strict : Bool) : Except String Unit :=
  if ir.numPoints ≤ 0 then
    .error "compressed ply write failed: no points to write"
  else .ok ()

/-- `SogWriter::Write` (sog_writer.cpp line 210): the
`numPoints <= 0` guard is the only early return. -/
def sogWrite (ir : SplatIR) (_strict : Bool) : Except String Unit :=
  if ir.numPoints ≤ 0 then
    .error "SOG: Empty cloud"
  else .ok ()

/-- C10: every IR with `numPoints = 0` is rejected by the splat,
ksplat, compressed-PLY and SOG writers, whatever the strict option:
splat and ksplat test `N == 0` right after the strict-gated validation,
and the compressed-PLY and SOG writers test `numPoints <= 0` first. -/
theorem writers_reject_empty_cloud (ir : SplatIR) (strict : Bool)
    (h : ir.numPoints = 0) :
    (splatWrite ir strict).isOk = false ∧ (ksplatWrite ir strict).isOk = false ∧
    (plyCompressedWrite ir strict).isOk = false ∧
    (sogWrite ir strict).isOk = false := by
  refine ⟨?_, ?_, ?_, ?_⟩
  · unfold splatWrite
    split_ifs <;> simp_all [Except.isOk, Except.toBool]
  · unfold ksplatWrite
    split_ifs <;> simp_all [Except.isOk, Except.toBool]
  · unfold plyCompressedWrite
    rw [if_pos (le_of_eq h)]
    rfl
  · unfold sogWrite
    rw [if_pos (le_of_eq h)]
    rfl

/-- C10 witness: the all-empty IR is rejected by all four writers in
both modes. -/
theorem writers_reject_empty_cloud_witness :
    (SplatIR.numPoints ⟨0, 0, [], [], [], [], [], []⟩ = 0 ∧
      SplatIR.numPoints ⟨0, 3, [], [], [], [], [], []⟩ = 0) ∧
    ((splatWrite ⟨0, 0, [], [], [], [], [], []⟩ true).isOk = false ∧
      (ksplatWrite ⟨0, 0, [], [], [], [], [], []⟩ true).isOk = false ∧
      (plyCompressedWrite ⟨0, 0, [], [], [], [], [], []⟩ true).isOk = false ∧
      (sogWrite ⟨0, 0, [], [], [], [], [], []⟩ true).isOk = false) ∧
    ((splatWrite ⟨0, 3, [], [], [], [], [], []⟩ false).isOk = false ∧
      (ksplatWrite ⟨0, 3, [], [], [], [], [], []⟩ false).isOk = false ∧
      (plyCompressedWrite ⟨0, 3, [], [], [], [], [], []⟩ false).isOk = false ∧
      (sogWrite ⟨0, 3, [], [], [], [], [], []⟩ false).isOk = false) :=
  ⟨⟨rfl, rfl⟩, writers_reject_empty_cloud ⟨0, 0, [], [], [], [], [], []⟩ true rfl,
    writers_reject_empty_cloud ⟨0, 3, [], [], [], [], [], []⟩ false rfl⟩

/-! ## SOG reader (src/src/io/sog_reader.cpp `SogReader::Read`, lines 264-421)

The ZIP container, the JSON meta parse and the WebP decoder are
external adapters; they enter the model as function parameters
(`extract`, with `none` for a failed `zip.Open`; `parseMeta`;
`decodeWebP`).  Everything after them — the meta checks, the
conditionally-filled arrays and the strict-gated validation — is
translated from the reader.  Out-of-range `std::vector` indexing
(undefined behaviour in the source) is modelled as `getD _ 0`. -/

/-- `WebPImage` (sog_reader.cpp lines 173-177). -/
structure WebPImage where
  rgba : List ℕ
  width : ℕ
  height : ℕ

/-- `SogMeta` (sog_reader.cpp lines 196-221); `version`/`count` are
`uint32_t`. -/
structure SogMeta where
  version : ℕ
  count : ℕ
  meansMins : List ℝ
  meansMaxs : List ℝ
  meansFiles : List String
  scalesCodebook : List ℝ
  scalesFiles : List String
  quatsFiles : List String
  sh0Codebook : List ℝ
  sh0Files : List String
  shNCount : ℕ
  shNBands : ℕ
  shNCodebook : List ℝ
  shNFiles : List String

/-- `GaussianCloudIR` over real-valued floats, as produced by the SOG
reader. -/
structure SogIR where
  numPoints : ℤ
  shDegree : ℤ
  positions : List ℝ
  scales : List ℝ
  rotations : List ℝ
  alphas : List ℝ
  colors : List ℝ
  sh : List ℝ

/-- `InvLogTransform` (sog_reader.cpp lines 162-166). -/
noncomputable def InvLogTransform (v : ℝ) : ℝ :=
  if v < 0 then -(Real.exp |v| - 1) else Real.exp |v| - 1

/-- `SigmoidInv` (sog_reader.cpp lines 168-171). -/
noncomputable def SigmoidInv (y : ℝ) : ℝ :=
  Real.log (min (1 - 1e-6) (max 1e-6 y) / (1 - min (1 - 1e-6) (max 1e-6 y)))

/-- One decoded position triple (reader lines 303-315): 16-bit
lo/hi recombination, min/max dequantization, `InvLogTransform`. -/
noncomputable def sogPosPoint (meta : SogMeta) (meansL meansU : WebPImage)
    (i : ℕ) : List ℝ :=
  (List.range 3).map (fun d =>
    InvLogTransform (meta.meansMins.getD d 0 +
      (((meansL.rgba.getD (i * 4 + d) 0 + 256 * meansU.rgba.getD (i * 4 + d) 0 : ℕ) : ℝ) /
          65535) *
        (meta.meansMaxs.getD d 0 - meta.meansMins.getD d 0)))

/-- One stored rotation byte mapped back to `[-√2/2, √2/2]`
(reader lines 341-343). -/
noncomputable def sogQuatA (q : WebPImage) (i k : ℕ) : ℝ :=
  (((q.rgba.getD (i * 4 + k) 0 : ℕ) : ℝ) / 255 - 0.5) * Real.sqrt 2

/-- The reconstructed largest rotation component (reader line 344). -/
noncomputable def sogQuatD (q : WebPImage) (i : ℕ) : ℝ :=
  Real.sqrt (max 0 (1 - (sogQuatA q i 0 * sogQuatA q i 0 +
    sogQuatA q i 1 * sogQuatA q i 1 + sogQuatA q i 2 * sogQuatA q i 2)))

/-- One decoded quaternion `[w,x,y,z]` (reader lines 326-358):
tag `< 252` yields the identity, otherwise the three stored bytes are
mapped back to `[-√2/2, √2/2]`, the missing component reconstructed,
and the `switch (mode)` places them. -/
noncomputable def sogQuatPoint (q : WebPImage) (i : ℕ) : List ℝ :=
  if q.rgba.getD (i * 4 + 3) 0 < 252 then [1, 0, 0, 0]
  else
    if q.rgba.getD (i * 4 + 3) 0 - 252 = 0 then
      [sogQuatD q i, sogQuatA q i 0, sogQuatA q i 1, sogQuatA q i 2]
    else if q.rgba.getD (i * 4 + 3) 0 - 252 = 1 then
      [sogQuatA q i 0, sogQuatD q i, sogQuatA q i 1, sogQuatA q i 2]
    else if q.rgba.getD (i * 4 + 3) 0 - 252 = 2 then
      [sogQuatA q i 0, sogQuatA q i 1, sogQuatD q i, sogQuatA q i 2]
    else if q.rgba.getD (i * 4 + 3) 0 - 252 = 3 then
      [sogQuatA q i 0, sogQuatA q i 1, sogQuatA q i 2, sogQuatD q i]
    else [1, 0, 0, 0]

/-- One decoded scale triple (reader lines 367-370): codebook lookup
of three bytes. -/
def sogScalePoint (codebook : List ℝ) (img : WebPImage) (i : ℕ) : List ℝ :=
  [codebook.getD (img.rgba.getD (i * 4 + 0) 0) 0,
   codebook.getD (img.rgba.getD (i * 4 + 1) 0) 0,
   codebook.getD (img.rgba.getD (i * 4 + 2) 0) 0]

/-- One decoded color triple (reader lines 382-385). -/
def sogColorPoint (codebook : List ℝ) (img : WebPImage) (i : ℕ) : List ℝ :=
  [codebook.getD (img.rgba.getD (i * 4 + 0) 0) 0,
   codebook.getD (img.rgba.getD (i * 4 + 1) 0) 0,
   codebook.getD (img.rgba.getD (i * 4 + 2) 0) 0]

/-- One decoded pre-sigmoid opacity (reader line 386). -/
noncomputable def sogAlphaPoint (img : WebPImage) (i : ℕ) : ℝ :=
  SigmoidInv (((img.rgba.getD (i * 4 + 3) 0 : ℕ) : ℝ) / 255)

/-- `coeffs[] = {0, 3, 8, 15}` indexed with `min(bands, 3)`
(reader lines 396-397). -/
def sogShCoeffs (bands : ℕ) : ℕ :=
  [0, 3, 8, 15].getD (min bands 3) 0

/-- One point's higher-order SH block (reader lines 401-417): the
16-bit palette label selects a centroid row; labels at or past
`shN.count` leave the zero-initialized values (`continue`), otherwise
the per-channel centroid groups are interleaved into RGB order. -/
def sogShPoint (shNCount : ℕ) (codebook : List ℝ) (centroids labels : WebPImage)
    (shCoeffs i : ℕ) : List ℝ :=
  if shNCount ≤ labels.rgba.getD (i * 4 + 0) 0 + 256 * labels.rgba.getD (i * 4 + 1) 0 then
    List.replicate (shCoeffs * 3) 0
  else
    (List.range shCoeffs).flatMap (fun j =>
      [codebook.getD (centroids.rgba.getD
          ((((labels.rgba.getD (i * 4 + 0) 0 + 256 * labels.rgba.getD (i * 4 + 1) 0) / 64) *
              centroids.width +
            ((labels.rgba.getD (i * 4 + 0) 0 + 256 * labels.rgba.getD (i * 4 + 1) 0) % 64) *
              shCoeffs + j) * 4 + 0) 0) 0,
       codebook.getD (centroids.rgba.getD
          ((((labels.rgba.getD (i * 4 + 0) 0 + 256 * labels.rgba.getD (i * 4 + 1) 0) / 64) *
              centroids.width +
            ((labels.rgba.getD (i * 4 + 0) 0 + 256 * labels.rgba.getD (i * 4 + 1) 0) % 64) *
              shCoeffs + j) * 4 + 1) 0) 0,
       codebook.getD (centroids.rgba.getD
          ((((labels.rgba.getD (i * 4 + 0) 0 + 256 * labels.rgba.getD (i * 4 + 1) 0) / 64) *
              centroids.width +
            ((labels.rgba.getD (i * 4 + 0) 0 + 256 * labels.rgba.getD (i * 4 + 1) 0) % 64) *
              shCoeffs + j) * 4 + 2) 0) 0])

/-- `ValidateBasic` (validate.cpp lines 11-82) on a real-valued IR:
the structural checks; the strict non-finite scan never fires in the
real-valued model (every modelled value is a finite float). -/
def ValidateBasicSog (ir : SogIR) (_strict : Bool) : Option String :=
  if ir.numPoints < 0 then some "numPoints is negative"
  else if ir.positions.length ≠ ir.numPoints.toNat * 3 then
    some (sizeMismatchMsg "positions" ir.positions.length (ir.numPoints.toNat * 3))
  else if ir.scales.length ≠ ir.numPoints.toNat * 3 then
    some (sizeMismatchMsg "scales" ir.scales.length (ir.numPoints.toNat * 3))
  else if ir.rotations.length ≠ ir.numPoints.toNat * 4 then
    some (sizeMismatchMsg "rotations" ir.rotations.length (ir.numPoints.toNat * 4))
  else if ir.alphas.length ≠ ir.numPoints.toNat then
    some (sizeMismatchMsg "alphas" ir.alphas.length ir.numPoints.toNat)
  else if ir.colors.length ≠ ir.numPoints.toNat * 3 then
    some (sizeMismatchMsg "colors" ir.colors.length (ir.numPoints.toNat * 3))
  else if ir.sh.length ≠ ir.numPoints.toNat * (ShCoeffsPerPoint ir.shDegree).toNat then
    some (sizeMismatchMsg "sh" ir.sh.length
      (ir.numPoints.toNat * (ShCoeffsPerPoint ir.shDegree).toNat))
  else none

/-- The positions block (reader lines 298-318). -/
noncomputable def sogPositionsArr (meta : SogMeta) (ex : String → List ℕ)
    (decodeWebP : List ℕ → Option WebPImage) : List ℝ :=
  if 2 ≤ meta.meansFiles.length then
    match decodeWebP (ex (meta.meansFiles.getD 0 "")),
        decodeWebP (ex (meta.meansFiles.getD 1 "")) with
    | some l, some u => (List.range meta.count).flatMap (fun i => sogPosPoint meta l u i)
    | _, _ => []
  else []

/-- The quaternions block (reader lines 321-360). -/
noncomputable def sogRotationsArr (meta : SogMeta) (ex : String → List ℕ)
    (decodeWebP : List ℕ → Option WebPImage) : List ℝ :=
  if meta.quatsFiles ≠ [] then
    match decodeWebP (ex (meta.quatsFiles.getD 0 "")) with
    | some q => (List.range meta.count).flatMap (fun i => sogQuatPoint q i)
    | none => []
  else []

/-- The scales block (reader lines 363-374). -/
noncomputable def sogScalesArr (meta : SogMeta) (ex : String → List ℕ)
    (decodeWebP : List ℕ → Option WebPImage) : List ℝ :=
  if meta.scalesFiles ≠ [] ∧ meta.scalesCodebook ≠ [] then
    match decodeWebP (ex (meta.scalesFiles.getD 0 "")) with
    | some s => (List.range meta.count).flatMap (fun i => sogScalePoint meta.scalesCodebook s i)
    | none => []
  else []

/-- The SH0+opacity block (reader lines 377-389): colors and alphas
are resized and filled together. -/
noncomputable def sogSh0Arr (meta : SogMeta) (ex : String → List ℕ)
    (decodeWebP : List ℕ → Option WebPImage) : List ℝ × List ℝ :=
  if meta.sh0Files ≠ [] ∧ meta.sh0Codebook ≠ [] then
    match decodeWebP (ex (meta.sh0Files.getD 0 "")) with
    | some s =>
      ((List.range meta.count).flatMap (fun i => sogColorPoint meta.sh0Codebook s i),
        (List.range meta.count).map (fun i => sogAlphaPoint s i))
    | none => ([], [])
  else ([], [])

/-- The higher-order SH block (reader lines 392-418): fills `sh` and
sets the SH degree from `shN.bands` only when its guard holds and both
WebPs decode. -/
noncomputable def sogShNArr (meta : SogMeta) (ex : String → List ℕ)
    (decodeWebP : List ℕ → Option WebPImage) : List ℝ × ℤ :=
  if 0 < meta.shNBands ∧ 2 ≤ meta.shNFiles.length ∧ meta.shNCodebook ≠ [] then
    match decodeWebP (ex (meta.shNFiles.getD 0 "")),
        decodeWebP (ex (meta.shNFiles.getD 1 "")) with
    | some cent, some lab =>
      ((List.range meta.count).flatMap
          (fun i => sogShPoint meta.shNCount meta.shNCodebook cent lab
            (sogShCoeffs meta.shNBands) i),
        (meta.shNBands : ℤ))
    | _, _ => ([], 0)
  else ([], 0)

/-- The IR assembled by the SOG reader before validation
(reader lines 290-418). -/
noncomputable def sogBuildIR (meta : SogMeta) (ex : String → List ℕ)
    (decodeWebP : List ℕ → Option WebPImage) : SogIR :=
  ⟨toInt32 meta.count, (sogShNArr meta ex decodeWebP).2,
    sogPositionsArr meta ex decodeWebP, sogScalesArr meta ex decodeWebP,
    sogRotationsArr meta ex decodeWebP, (sogSh0Arr meta ex decodeWebP).2,
    (sogSh0Arr meta ex decodeWebP).1, (sogShNArr meta ex decodeWebP).1⟩

/-- `SogReader::Read` (sog_reader.cpp lines 264-421): ZIP open /
meta.json presence / parse / version checks, `numPoints` from the
`int32_t` cast of `meta.count`, the five conditionally-filled array
blocks (each filled only when its files are listed, its codebook is
non-empty where one is used, and the WebP decodes succeed — otherwise
the array stays empty), and the strict-gated `ValidateBasic`. -/
noncomputable def sogRead (extract : Option (String → List ℕ))
    (parseMeta : List ℕ → Option SogMeta)
    (decodeWebP : List ℕ → Option WebPImage) (strict : Bool) :
    Except String SogIR :=
  match extract with
  | none => .error "SOG: Failed to open ZIP"
  | some ex =>
    if ex "meta.json" = [] then .error "SOG: meta.json not found in archive"
    else
      match parseMeta (ex "meta.json") with
      | none => .error "SOG: Failed to parse meta.json"
      | some meta =>
        if meta.version < 2 then .error "SOG: Version < 2 not supported"
        else
          if strict = true ∧ ValidateBasicSog (sogBuildIR meta ex decodeWebP) strict ≠ none then
            .error ((ValidateBasicSog (sogBuildIR meta ex decodeWebP) strict).getD "")
          else
            .ok (sogBuildIR meta ex decodeWebP)

theorem validateSog_none (ir : SogIR) (strict : Bool)
    (h : ValidateBasicSog ir strict = none) :
    0 ≤ ir.numPoints ∧
    ir.positions.length = ir.numPoints.toNat * 3 ∧
    ir.scales.length = ir.numPoints.toNat * 3 ∧
    ir.rotations.length = ir.numPoints.toNat * 4 ∧
    ir.alphas.length = ir.numPoints.toNat ∧
    ir.colors.length = ir.numPoints.toNat * 3 ∧
    ir.sh.length = ir.numPoints.toNat * (ShCoeffsPerPoint ir.shDegree).toNat := by
  unfold ValidateBasicSog at h
  split_ifs at h with h1 h2 h3 h4 h5 h6 h7
  exact ⟨not_lt.mp h1, not_ne_iff.mp h2, not_ne_iff.mp h3, not_ne_iff.mp h4,
    not_ne_iff.mp h5, not_ne_iff.mp h6, not_ne_iff.mp h7⟩

/-- The meta of the C2 counterexample: a well-formed v2 meta.json
announcing five points but listing no texture files. -/
def cexSogMeta : SogMeta :=
  ⟨2, 5, [], [], [], [], [], [], [], [], 0, 0, [], []⟩

/-- C2 counterexample: under `strict = false` the SOG reader accepts a
v2 archive whose meta announces `count = 5` but contains no texture
files, returning success with `numPoints = 5` and every array empty —
`positions.len = 0 ≠ 3·5`, violating the §3 invariants the claim
asserts for every successful read. -/
theorem sogRead_nonstrict_breaks_invariants :
    sogRead (some fun _ => [1]) (fun _ => some cexSogMeta) (fun _ => none) false =
      .ok ⟨5, 0, [], [], [], [], [], []⟩ ∧
    (SogIR.positions ⟨5, 0, [], [], [], [], [], []⟩).length ≠
      (SogIR.numPoints ⟨5, 0, [], [], [], [], [], []⟩).toNat * 3 :=
  ⟨rfl, by norm_num⟩

/-- C2 (amended): under `strict = true` every successful SOG read
satisfies the §3 invariants — `numPoints ≥ 0` and all six array-length
equations — because the strict-gated `ValidateBasic` call is the last
step before success; under `strict = false` the gate is skipped and
the invariants can fail. -/
theorem sogRead_strict_ok_invariants (extract : Option (String → List ℕ))
    (parseMeta : List ℕ → Option SogMeta)
    (decodeWebP : List ℕ → Option WebPImage) (ir : SogIR)
    (h : sogRead extract parseMeta decodeWebP true = .ok ir) :
    0 ≤ ir.numPoints ∧
    ir.positions.length = ir.numPoints.toNat * 3 ∧
    ir.scales.length = ir.numPoints.toNat * 3 ∧
    ir.rotations.length = ir.numPoints.toNat * 4 ∧
    ir.alphas.length = ir.numPoints.toNat ∧
    ir.colors.length = ir.numPoints.toNat * 3 ∧
    ir.sh.length = ir.numPoints.toNat * (ShCoeffsPerPoint ir.shDegree).toNat := by
  unfold sogRead at h
  split at h
  · exact absurd h (by simp)
  · split at h
    · exact absurd h (by simp)
    · split at h
      · exact absurd h (by simp)
      · split at h
        · exact absurd h (by simp)
        · split at h
          · exact absurd h (by simp)
          · rename_i hcond
            rw [Except.ok.injEq] at h
            push_neg at hcond
            have hval := hcond rfl
            rw [h] at hval
            exact validateSog_none ir true hval

/-- C2 witness: a strict read of an empty v2 archive succeeds with
all invariants holding. -/
theorem sogRead_strict_ok_invariants_witness :
    sogRead (some fun _ => [1])
        (fun _ => some ⟨2, 0, [], [], [], [], [], [], [], [], 0, 0, [], []⟩)
        (fun _ => none) true = .ok ⟨0, 0, [], [], [], [], [], []⟩ ∧
    (0 ≤ (0 : ℤ) ∧ ([] : List ℝ).length = (0 : ℤ).toNat * 3 ∧
      ([] : List ℝ).length = (0 : ℤ).toNat * 3 ∧
      ([] : List ℝ).length = (0 : ℤ).toNat * 4 ∧
      ([] : List ℝ).length = (0 : ℤ).toNat ∧
      ([] : List ℝ).length = (0 : ℤ).toNat * 3 ∧
      ([] : List ℝ).length = (0 : ℤ).toNat * (ShCoeffsPerPoint 0).toNat) :=
  ⟨rfl, sogRead_strict_ok_invariants (some fun _ => [1])
    (fun _ => some ⟨2, 0, [], [], [], [], [], [], [], [], 0, 0, [], []⟩)
    (fun _ => none) ⟨0, 0, [], [], [], [], [], []⟩ rfl⟩

/-! ## PLY auto-detection (src/unnamed/part_013 `IsCompressedPly`
lines 65-226 and `PlyAutoReader::Read` lines 230-249)

This file's `getlineSkipComment` (part_013 lines 22-62) differs from
the plain PLY reader's line scanner: it trims whitespace at BOTH ends
and skips blank and `comment`-prefixed lines.  `IsCompressedPly`
collects the header's `element`/`property` declarations and checks the
compressed-PLY shape; `std::stoi` on the element count can THROW
(`std::invalid_argument`), and `PlyAutoReader::Read` has no
try/catch, so that exception escapes the reader — modelled as the
`.threw` outcome. -/

/-- The whitespace set `" \t\r\n"` trimmed by part_013's line scanner. -/
def isTrimWsByte (b : ℕ) : Bool := b = 32 || b = 9 || b = 13 || b = 10

/-- Trailing and leading trim (part_013 lines 44-55). -/
def trimBoth (l : List ℕ) : List ℕ :=
  ((l.dropWhile isTrimWsByte).reverse.dropWhile isTrimWsByte).reverse

/-- `getlineSkipComment` (part_013 lines 22-62), fuelled by the byte
count (each iteration consumes at least one byte): split at `\n`, trim
both ends, skip empty and `comment`-prefixed lines. -/
def autoGetlineAux : ℕ → List ℕ → Option (List ℕ × List ℕ)
  | 0, _ => none
  | _, [] => none
  | fuel + 1, bytes =>
    if trimBoth (bytes.takeWhile (fun b => b ≠ 10)) = [] then
      autoGetlineAux fuel ((bytes.dropWhile (fun b => b ≠ 10)).drop 1)
    else if (strBytes "comment").isPrefixOf (trimBoth (bytes.takeWhile (fun b => b ≠ 10))) then
      autoGetlineAux fuel ((bytes.dropWhile (fun b => b ≠ 10)).drop 1)
    else some (trimBoth (bytes.takeWhile (fun b => b ≠ 10)),
      (bytes.dropWhile (fun b => b ≠ 10)).drop 1)

def autoGetline (bytes : List ℕ) : Option (List ℕ × List ℕ) :=
  autoGetlineAux bytes.length bytes

/-- `ElementInfo` (part_013 lines 96-100): name, row count, and
`(type, name)` property pairs, as byte strings. -/
structure ElementInfo where
  name : List ℕ
  count : ℤ
  props : List (List ℕ × List ℕ)
deriving DecidableEq

/-- Outcome of the header-collection loop (part_013 lines 102-128):
`threw` models the uncaught `std::stoi` exception, `failed` a
`return false` inside the loop, `parsed` normal completion. -/
inductive AutoParse where
  | threw
  | failed
  | parsed (elements : List ElementInfo)
deriving DecidableEq

/-- `currentElement->properties.push_back(...)` — `currentElement`
always points at the last parsed element. -/
def pushProp (acc : List ElementInfo) (ty nm : List ℕ) : List ElementInfo :=
  match acc.getLast? with
  | none => acc
  | some e => acc.dropLast ++ [⟨e.name, e.count, e.props ++ [(ty, nm)]⟩]

/-- The header-collection loop (part_013 lines 102-128): stop at EOF
or `end_header`; an `element` line without a space fails, otherwise
its count goes through `std::stoi` (which throws on non-numeric
counts); a `property` line is recorded only once an element exists
and fails without a space; any other line is ignored. -/
def autoParseElems : ℕ → List ℕ → List ElementInfo → AutoParse
  | 0, _, acc => .parsed acc
  | fuel + 1, bytes, acc =>
    match autoGetline bytes with
    | none => .parsed acc
    | some (line, rest) =>
      if line = strBytes "end_header" then .parsed acc
      else if (strBytes "element ").isPrefixOf line then
        (if (line.drop 8).all (fun b => b ≠ 32) then .failed
         else
           match stoiBytes (((line.drop 8).dropWhile (fun b => b ≠ 32)).drop 1) with
           | none => .threw
           | some c =>
             autoParseElems fuel rest
               (acc ++ [⟨(line.drop 8).takeWhile (fun b => b ≠ 32), c, []⟩]))
      else if (strBytes "property ").isPrefixOf line ∧ acc ≠ [] then
        (if (line.drop 9).all (fun b => b ≠ 32) then .failed
         else autoParseElems fuel rest
           (pushProp acc ((line.drop 9).takeWhile (fun b => b ≠ 32))
             (((line.drop 9).dropWhile (fun b => b ≠ 32)).drop 1)))
      else autoParseElems fuel rest acc

/-- `static_cast<int>(std::ceil(double(v) / 256.0))` for `int32`
counts, as exact integer arithmetic (`/` on ℤ is floor division);
`ceilDiv256_eq` below ties it to the mathematical ceiling. -/
def ceilDiv256 (v : ℤ) : ℤ := (v + 255) / 256

theorem ceilDiv256_eq (v : ℤ) : ceilDiv256 v = Int.ceil ((v : ℚ) / 256) := by
  symm
  rw [Int.ceil_eq_iff]
  have hlo : 256 * ceilDiv256 v - 256 < v := by
    unfold ceilDiv256
    omega
  have hhi : v ≤ 256 * ceilDiv256 v := by
    unfold ceilDiv256
    omega
  constructor
  · rw [lt_div_iff₀ (by norm_num)]
    have h : ((256 * ceilDiv256 v - 256 : ℤ) : ℚ) < ((v : ℤ) : ℚ) := by exact_mod_cast hlo
    push_cast at h ⊢
    linarith
  · rw [div_le_iff₀ (by norm_num)]
    have h : ((v : ℤ) : ℚ) ≤ ((256 * ceilDiv256 v : ℤ) : ℚ) := by exact_mod_cast hhi
    push_cast at h ⊢
    linarith

/-- The 18 expected chunk property names (part_013 lines 83-88). -/
def chunkPropNames : List (List ℕ) :=
  ["min_x", "min_y", "min_z", "max_x", "max_y", "max_z",
   "min_scale_x", "min_scale_y", "min_scale_z",
   "max_scale_x", "max_scale_y", "max_scale_z",
   "min_r", "min_g", "min_b", "max_r", "max_g", "max_b"].map strBytes

/-- The 4 expected vertex property names (part_013 lines 91-92). -/
def vertexPropNames : List (List ℕ) :=
  ["packed_position", "packed_rotation", "packed_scale", "packed_color"].map strBytes

/-- `std::find_if` by element name (first match). -/
def elemFind (elems : List ElementInfo) (nm : String) : Option ElementInfo :=
  elems.find? (fun e => e.name == strBytes nm)

/-- Chunk shape check (part_013 lines 142-154): exactly 18 properties,
each expected name present with type `float` (order-insensitive). -/
def checkChunk (e : ElementInfo) : Bool :=
  e.props.length == 18 &&
    chunkPropNames.all (fun nm => e.props.any (fun p => p.1 == strBytes "float" && p.2 == nm))

/-- Vertex shape check (part_013 lines 163-175): exactly the 4 packed
`uint` properties (order-insensitive). -/
def checkVertex (e : ElementInfo) : Bool :=
  e.props.length == 4 &&
    vertexPropNames.all (fun nm => e.props.any (fun p => p.1 == strBytes "uint" && p.2 == nm))

/-- `f_rest_0 .. f_rest_(k-1)` (part_013 lines 197-200). -/
def shNames (k : ℕ) : List (List ℕ) :=
  (List.range k).map (fun i => strBytes ("f_rest_" ++ toString i))

/-- SH element check (part_013 lines 190-222): property count in
{9, 24, 45}, every property `uchar` with a name among the expected
ones, no duplicate names (which, with the count equality, makes the
found set equal the expected set), and row count equal to the vertex
count. -/
def checkSh (e : ElementInfo) (vcount : ℤ) : Bool :=
  (e.props.length == 9 || e.props.length == 24 || e.props.length == 45) &&
  e.props.all (fun p => p.1 == strBytes "uchar" && (shNames e.props.length).contains p.2) &&
  decide ((e.props.map (fun p => p.2)).Nodup) &&
  e.count == vcount

/-- The element-level checks of `IsCompressedPly` (part_013 lines
131-225): two or three elements, a well-shaped `chunk` and `vertex`,
`chunk.count = ceil(vertex.count / 256)`, and with three elements a
well-shaped `sh` with the vertex row count. -/
def checkElems (elems : List ElementInfo) : Bool :=
  (elems.length == 2 || elems.length == 3) &&
  match elemFind elems "chunk" with
  | none => false
  | some ch =>
    checkChunk ch &&
    match elemFind elems "vertex" with
    | none => false
    | some vx =>
      checkVertex vx &&
      ch.count == ceilDiv256 vx.count &&
      (if elems.length == 3 then
        match elemFind elems "sh" with
        | none => false
        | some sh => checkSh sh vx.count
      else true)

/-- Outcome of `PlyAutoReader::Read`'s dispatch: `compressed` goes to
the compressed reader, `plain` to the plain reader, and `threw` is an
exception escaping `Read` (no try/catch wraps the call, part_013
lines 233-247). -/
inductive AutoClass where
  | threw
  | compressed
  | plain
deriving DecidableEq

/-- `IsCompressedPly` (part_013 lines 65-226), with the `std::stoi`
exception made explicit as `.threw`. -/
def IsCompressedPly (bytes : List ℕ) : AutoClass :=
  if bytes = [] then .plain
  else
    match autoGetline bytes with
    | none => .plain
    | some (l1, r1) =>
      if l1 ≠ strBytes "ply" then .plain
      else
        match autoGetline r1 with
        | none => .plain
        | some (l2, r2) =>
          if l2 ≠ strBytes "format binary_little_endian 1.0" then .plain
          else
            match autoParseElems (r2.length + 1) r2 [] with
            | .threw => .threw
            | .failed => .plain
            | .parsed elems => if checkElems elems then .compressed else .plain

/-- A well-formed two-element compressed-PLY header: 18 chunk floats,
4 packed vertex uints, 256 vertices and hence 1 chunk. -/
def compressedHeaderBuf : List ℕ :=
  strBytes ("ply\nformat binary_little_endian 1.0\nelement chunk 1\n" ++
    "property float min_x\nproperty float min_y\nproperty float min_z\n" ++
    "property float max_x\nproperty float max_y\nproperty float max_z\n" ++
    "property float min_scale_x\nproperty float min_scale_y\nproperty float min_scale_z\n" ++
    "property float max_scale_x\nproperty float max_scale_y\nproperty float max_scale_z\n" ++
    "property float min_r\nproperty float min_g\nproperty float min_b\n" ++
    "property float max_r\nproperty float max_g\nproperty float max_b\n" ++
    "element vertex 256\n" ++
    "property uint packed_position\nproperty uint packed_rotation\n" ++
    "property uint packed_scale\nproperty uint packed_color\n" ++
    "end_header\n")

/-- A syntactically valid PLY header whose vertex count is not a
number: `std::stoi` throws `std::invalid_argument` on it. -/
def throwHeaderBuf : List ℕ :=
  strBytes "ply\nformat binary_little_endian 1.0\nelement vertex abc\nend_header\n"

set_option maxRecDepth 100000 in
/-- C9: the auto-detector's classification matches the claimed
conditions on well-formed headers — a complete chunk+vertex compressed
header is classified compressed, and a plain-PLY header is dispatched
to the plain reader — but the classifier is NOT total as the claim and
§7 require: on `element vertex abc` the uncaught `std::stoi` exception
escapes `PlyAutoReader::Read` instead of the buffer being dispatched
to the plain PLY reader. -/
theorem plyAuto_classifier_stoi_escapes :
    IsCompressedPly compressedHeaderBuf = .compressed ∧
    IsCompressedPly emptyVertexPlyBuffer = .plain ∧
    IsCompressedPly throwHeaderBuf = .threw := by
  refine ⟨by decide, by decide, by decide⟩
